import Mathlib

/-!
# twitch-loyalty-go: the chat monitor of `parser.go`

A shallow embedding of `parser.go` (package `main`): the command parser
(`GetCommand`, `GetArgument`), the cheer scanner (`CheckCheers`), the handlers
(`Subscribe`, `GiftSub`, `AboutMe`, `Cheer`, `doCheer`, `Stats`), the dispatcher
(`NewMessage`) and the throttled delivery loop (`SaySlowly`).

Conventions of the embedding.

* A Go `string` is a Lean `String`; message texts are well-formed Unicode text.
* A Go `int` is a Lean `Int` kept inside the signed 64-bit range; every
  arithmetic result that can leave the range is reduced with `wrapInt`.
* A Go `error` is an `Option String`: `none` is `nil`, `some e` is an error whose
  `Error()` text is `e`.
* A Go `*string` is an `Option String`: `none` is the `nil` pointer.
* A run-time fault (index out of range) is the outer `none` of an `Option` result.
* The ledger behind the `LoyaltyRepo` interface is an arbitrary state `σ` with the
  five interface methods as state transformers; every call made through the
  interface is appended to the ghost field `calls`.
* The buffered channel `cm.messages` is the list of the texts sent to it, oldest
  first.
* Writes to the log and to standard output are not modelled.
-/

namespace TwitchLoyalty

/-! ## Machine integers -/

/-- Largest value of a Go `int` on a 64-bit platform. -/
def maxInt : Int := 9223372036854775807

/-- Smallest value of a Go `int` on a 64-bit platform. -/
def minInt : Int := -9223372036854775808

/-- Two's-complement reduction of an integer into the range of a Go `int`. -/
def wrapInt (x : Int) : Int := (x + 9223372036854775808) % 18446744073709551616 - 9223372036854775808

/-- Go indexing `xs[i]` with an `int` index: `none` is the index-out-of-range fault. -/
def index {α : Type} (xs : List α) (i : Int) : Option α :=
  if i < 0 then none else xs[i.toNat]?

/-! ## The standard-library string functions used by `parser.go` -/

namespace strings

/-- Splitting a character sequence at every occurrence of `sep`. -/
def splitChars (sep : Char) : List Char → List (List Char)
  | [] => [[]]
  | c :: cs =>
    if c = sep then [] :: splitChars sep cs
    else
      match splitChars sep cs with
      | [] => [[c]]
      | t :: ts => (c :: t) :: ts

/-- Go `strings.Split(s, sep)` for a one-character separator: the pieces between
the separators, empty pieces included; a text with `k` separators has `k + 1` pieces. -/
def Split (s : String) (sep : Char) : List String :=
  (splitChars sep s.data).map String.mk

/-- Go `strings.HasPrefix(s, pre)`. -/
def HasPrefix (s pre : String) : Bool :=
  pre.data.isPrefixOf s.data

/-- Go `strings.TrimPrefix(s, pre)`: `s` without the leading `pre`, or `s` itself
when it does not start with `pre`. -/
def TrimPrefix (s pre : String) : String :=
  if HasPrefix s pre then String.mk (s.data.drop pre.data.length) else s

/-- Go `strings.Join(parts, sep)`. -/
def Join (parts : List String) (sep : String) : String :=
  sep.intercalate parts

end strings

namespace strconv

/-- Value of a sequence of decimal digits, most significant first. -/
def digitsValue (ds : List Char) : Nat :=
  ds.foldl (fun n ch => n * 10 + (ch.toNat - 48)) 0

/-- Go `strconv.Atoi(s)`: an optional sign `+` or `-` followed by at least one
decimal digit and nothing else, whose value lies in the range of `int`;
`none` stands for a non-nil error (syntax or range). -/
def Atoi (s : String) : Option Int :=
  match s.data with
  | [] => none
  | c :: rest =>
    let ds := if c = '-' ∨ c = '+' then rest else c :: rest
    if ds.isEmpty then none
    else if ds.all Char.isDigit then
      let v : Int := if c = '-' then -(digitsValue ds : Int) else (digitsValue ds : Int)
      if minInt ≤ v ∧ v ≤ maxInt then some v else none
    else none

end strconv

/-! ## The run-time environment -/

/-- What the program takes from outside `parser.go` and the embedding leaves as a
parameter: the case table of `unicode.ToLower` (fixed on ASCII, where it maps
`A`..`Z` to `a`..`z` and nothing else), the text form of a `time.Duration`, and
the successive readings of the wall clock in nanoseconds. -/
structure Env where
  /-- Go `unicode.ToLower` on one character. -/
  lower : Char → Char
  /-- On ASCII the table moves exactly the letters `A`..`Z`. -/
  lower_ascii : ∀ c : Char, c.toNat < 128 → lower c = c.toLower
  /-- Go `time.Duration.String` of a number of nanoseconds. -/
  durationString : Int → String
  /-- The reading of `time.Now` at its `k`-th use, in nanoseconds. -/
  clock : Nat → Int

/-- Go `strings.ToLower(s)`: every character mapped through `unicode.ToLower`. -/
def strings.ToLower (env : Env) (s : String) : String :=
  String.mk (s.data.map env.lower)

/-! ## Data model -/

/-- The fields of `twitch.User` that the program reads. -/
structure User where
  Name : String
  DisplayName : String

/-- The fields of `twitch.PrivateMessage` that the program reads. -/
structure PrivateMessage where
  User : User
  Message : String

/-- Modelled from the spec: the declaration of `UserInfo` is not in `parser.go`;
the fields are those read by the handlers, the counters non-negative integers,
`LastSub` a point in time in nanoseconds and `SubbedFrom` the optional gifter. -/
structure UserInfo where
  MonthsSubbed : Nat
  LastSub : Int
  GiftsGiven : Nat
  SubbedFrom : Option String
  BitsCheered : Nat

/-- Modelled from the spec: the declaration of `ChannelInfo` is not in `parser.go`;
the fields are those read by `Stats` and `doCheer`, the counters non-negative integers. -/
structure ChannelInfo where
  ActiveSubs : Nat
  TotalGifts : Nat
  TotalCheers : Nat
  TopGifter : String

/-- The fixed list of treat names. -/
def treats : List String :=
  ["teddy bear", "hot choccy", "blanket", "desk plant", "wii u", "copy of mario maker",
   "rune scim", "egg salad", "buzzy beetle", "mazarati", "golden kappa", "time machine"]

/-- Modelled from the spec: the method `Treat` of `ChannelInfo` is not in `parser.go`;
the treat is selected by the community total modulo the length of `treats`. -/
def ChannelInfo.Treat (ci : ChannelInfo) : String :=
  treats.getD (ci.TotalCheers % treats.length) ""

/-- The interface `LoyaltyRepo` over a ledger state `σ`. A mutating method returns
its `error` and the next state; a reading method returns its value and the next state. -/
structure LoyaltyRepo (σ : Type) where
  Subscribe : String → σ → Option String × σ
  Gift : String → String → σ → Option String × σ
  Cheer : String → Int → σ → Option String × σ
  UserInfo : String → σ → UserInfo × σ
  ChannelInfo : σ → ChannelInfo × σ

/-- A call made through the `LoyaltyRepo` interface, with its arguments. -/
inductive LedgerCall where
  | Subscribe (user : String)
  | Gift (user : String) (giver : String)
  | Cheer (user : String) (amount : Int)
  | UserInfo (user : String)
  | ChannelInfo
  deriving DecidableEq, Repr

/-- The struct `ChatMonitor`: the embedded `LoyaltyRepo` (its methods and its state),
the channel name, the buffered channel `messages`, and two ghost fields: the ledger
calls made so far and the number of clock readings taken so far. -/
structure ChatMonitor (σ : Type) where
  LoyaltyRepo : LoyaltyRepo σ
  store : σ
  channel : String
  messages : List String
  calls : List LedgerCall
  ticks : Nat

/-- What the delivery loop does to the outside: a send on the transport or a
suspension of the given number of nanoseconds. -/
inductive Event where
  | Say (channel : String) (text : String)
  | Sleep (nanoseconds : Nat)
  deriving DecidableEq, Repr

namespace time

/-- Go `time.Second` in nanoseconds. -/
def Second : Int := 1000000000

/-- Go `time.Hour` in nanoseconds. -/
def Hour : Int := 3600000000000

/-- Go `Time.Sub`: the difference of two instants, saturated to the range of a `Duration`. -/
def Sub (t u : Int) : Int :=
  if t - u > maxInt then maxInt else if t - u < minInt then minInt else t - u

/-- Go `Duration.Round(m)`: the nearest multiple of `m`, halves away from zero,
saturated to the range of a `Duration`. -/
def Round (d m : Int) : Int :=
  if m ≤ 0 then d
  else
    let r := Int.tmod d m
    if d < 0 then
      let r := -r
      if r + r < m then d + r
      else
        let d1 := wrapInt (d - m + r)
        if d1 < d then d1 else minInt
    else
      if r + r < m then d - r
      else
        let d1 := wrapInt (d + m - r)
        if d1 > d then d1 else maxInt

end time

namespace ChatMonitor

variable {σ : Type}

/-! ## Calls through the embedded `LoyaltyRepo` -/

/-- The call `cm.LoyaltyRepo.Subscribe(user)`. -/
def callSubscribe (cm : ChatMonitor σ) (user : String) : Option String × ChatMonitor σ :=
  let r := cm.LoyaltyRepo.Subscribe user cm.store
  (r.1, { cm with store := r.2, calls := cm.calls ++ [LedgerCall.Subscribe user] })

/-- The call `cm.LoyaltyRepo.Gift(user, from)`. -/
def callGift (cm : ChatMonitor σ) (user giver : String) : Option String × ChatMonitor σ :=
  let r := cm.LoyaltyRepo.Gift user giver cm.store
  (r.1, { cm with store := r.2, calls := cm.calls ++ [LedgerCall.Gift user giver] })

/-- The call `cm.LoyaltyRepo.Cheer(user, amount)`. -/
def callCheer (cm : ChatMonitor σ) (user : String) (amount : Int) : Option String × ChatMonitor σ :=
  let r := cm.LoyaltyRepo.Cheer user amount cm.store
  (r.1, { cm with store := r.2, calls := cm.calls ++ [LedgerCall.Cheer user amount] })

/-- The call `cm.UserInfo(user)`. -/
def callUserInfo (cm : ChatMonitor σ) (user : String) : UserInfo × ChatMonitor σ :=
  let r := cm.LoyaltyRepo.UserInfo user cm.store
  (r.1, { cm with store := r.2, calls := cm.calls ++ [LedgerCall.UserInfo user] })

/-- The call `cm.ChannelInfo()`. -/
def callChannelInfo (cm : ChatMonitor σ) : ChannelInfo × ChatMonitor σ :=
  let r := cm.LoyaltyRepo.ChannelInfo cm.store
  (r.1, { cm with store := r.2, calls := cm.calls ++ [LedgerCall.ChannelInfo] })

/-- Go `time.Since(t)`: one reading of the clock, minus `t`. -/
def Since (env : Env) (cm : ChatMonitor σ) (t : Int) : Int × ChatMonitor σ :=
  (time.Sub (env.clock cm.ticks) t, { cm with ticks := cm.ticks + 1 })

end ChatMonitor

/-! ## The command parser -/

/-- The function `GetCommand`: the first piece of the text split at single spaces,
lowercased, without one leading `!`. The outer `none` is the fault of indexing `[0]`. -/
def GetCommand (env : Env) (message : PrivateMessage) : Option String :=
  match index (strings.Split message.Message ' ') 0 with
  | none => none
  | some first => some (strings.TrimPrefix (strings.ToLower env first) "!")

/-- The function `GetArgument`: `nil` (inner `none`) when `n+1 >= len(parts)`, otherwise
a pointer to piece `n+1`, lowercased, without one leading `@`. The sum `n+1` is a
machine sum; the outer `none` is the fault of indexing `parts[n+1]`. -/
def GetArgument (env : Env) (n : Int) (message : PrivateMessage) : Option (Option String) :=
  let parts := strings.Split message.Message ' '
  if wrapInt (n + 1) ≥ (parts.length : Int) then some none
  else
    match index parts (wrapInt (n + 1)) with
    | none => none
    | some part => some (some (strings.TrimPrefix (strings.ToLower env part) "@"))

/-- One leading `marker` removed from a character sequence, if it is there. -/
def stripMarker (marker : Char) : List Char → List Char
  | [] => []
  | c :: cs => if c = marker then cs else c :: cs

/-! ## The cheer scanner -/

/-- The package variable `prefixes`. -/
def prefixes : List String :=
  ["BleedPurple", "Cheer", "PogChamp", "ShowLove", "Pride", "HeyGuys", "FrankerZ",
   "SeemsGood", "Party", "Kappa", "DansGame", "EleGiggle", "TriHard", "Kreygasm", "4Head",
   "SwiftRage", "NotLikeThis", "FailFish", "VoHiYo", "PJSalt", "MrDestructoid", "bday",
   "RIPCheer", "Shamrock"]

/-- The body of the inner loop of `CheckCheers` for the piece `p` and one entry
`pre` of `prefixes`: the new value of `total`. -/
def cheerStep (p : String) (total : Int) (pre : String) : Int :=
  if strings.HasPrefix p pre then
    match strconv.Atoi (strings.TrimPrefix p pre) with
    | some amt => wrapInt (total + amt)
    | none => total
  else total

/-- The two nested loops of `CheckCheers`: the value of `total` when they end. -/
def cheerTotal (text : String) : Int :=
  (strings.Split text ' ').foldl (fun total p => prefixes.foldl (cheerStep p) total) 0

/-- The amount of one token in the words of the spec: the token starts with a known
emote name, and what remains of it after that name parses as a base-10 integer. -/
def tokenAmount (token : String) : Option Int :=
  (prefixes.find? (fun pre => strings.HasPrefix token pre)).bind
    (fun pre => strconv.Atoi (String.mk (token.data.drop pre.data.length)))

/-- The cheer total in the words of the spec: the sum of the amounts of the tokens of
the text that have one, as an unbounded integer. -/
def cheerSum (text : String) : Int :=
  ((strings.Split text ' ').filterMap tokenAmount).sum

namespace ChatMonitor

variable {σ : Type}

/-! ## The handlers -/

/-- The method `Say`: one send on the channel `cm.messages`. -/
def Say (cm : ChatMonitor σ) (s : String) : ChatMonitor σ :=
  { cm with messages := cm.messages ++ [s] }

/-- The method `Subscribe`. -/
def Subscribe (cm : ChatMonitor σ) (message : PrivateMessage) : String × ChatMonitor σ :=
  let r := cm.callSubscribe message.User.Name
  match r.1 with
  | some err =>
    (message.User.DisplayName ++ ", your sub failed because `" ++ err ++ "`", r.2)
  | none =>
    ("Thank you " ++ message.User.DisplayName ++
      " for the sub! You can now use our emotes: SeemsGood VoHiYo 4Head GivePLZ Kappa MingLee TableHere #IfYouWant!",
      r.2)

/-- The first entry of `parts` in `AboutMe`, after the `UserInfo` call and the
first reading of the clock; in the subscribed branch the clock is read again. -/
def subscriptionPart (env : Env) (cm : ChatMonitor σ) (info : UserInfo) (subbed : Bool) :
    String × ChatMonitor σ :=
  if !subbed then ("are not currently subscribed", cm)
  else
    let again := cm.Since env info.LastSub
    ("have been subscribed for " ++ toString info.MonthsSubbed ++ " months, most recently "
      ++ env.durationString (time.Round again.1 time.Second) ++ " ago", again.2)

/-- The entry of `parts` in `AboutMe` about the gifts given. -/
def giftsPart (info : UserInfo) : String :=
  if info.GiftsGiven = 0 then "have given 0 gift subs to the community"
  else "have given " ++ toString info.GiftsGiven ++ " gift subs"

/-- The entry of `parts` in `AboutMe` about the last gifter, when there is one. -/
def gifterPart (info : UserInfo) : List String :=
  match info.SubbedFrom with
  | some gifter => ["last received a gift sub from " ++ gifter]
  | none => []

/-- The entry of `parts` in `AboutMe` about the bits cheered. -/
def cheerPart (info : UserInfo) : String :=
  if info.BitsCheered = 0 then "have not cheered"
  else "have cheered " ++ toString info.BitsCheered ++ " bits"

/-- The method `AboutMe`. -/
def AboutMe (env : Env) (cm : ChatMonitor σ) (message : PrivateMessage) : String × ChatMonitor σ :=
  let r := cm.callUserInfo message.User.Name
  let info := r.1
  let elapsed := r.2.Since env info.LastSub
  let subbed : Bool := decide (elapsed.1 < 1 * time.Hour * 24 * 30)
  let first := subscriptionPart env elapsed.2 info subbed
  let parts := [first.1] ++ [giftsPart info] ++ gifterPart info ++ [cheerPart info]
  (message.User.DisplayName ++ ", you: " ++ strings.Join parts "; " ++ ".", first.2)

/-- The method `GiftSub`. The outer `none` is a fault inside `GetArgument`. -/
def GiftSub (env : Env) (cm : ChatMonitor σ) (message : PrivateMessage) :
    Option (String × ChatMonitor σ) :=
  match GetArgument env 0 message with
  | none => none
  | some none => some ("To gift sub, type !giftsub <username>", cm)
  | some (some arg) =>
    let r := cm.callGift arg message.User.Name
    match r.1 with
    | some err =>
      some (message.User.DisplayName ++ ", your giftsub failed because `" ++ err ++ "`", r.2)
    | none =>
      let u := r.2.callUserInfo message.User.Name
      some ("Thank you " ++ message.User.DisplayName ++ " for the gift sub to " ++ arg ++
        "! They can now use SeemsGood VoHiYo 4Head GivePLZ Kappa MingLee TableHere! You have given "
        ++ toString u.1.GiftsGiven ++ " gift subs to this channel.", u.2)

/-- The method `Stats`. -/
def Stats (cm : ChatMonitor σ) : String × ChatMonitor σ :=
  let r := cm.callChannelInfo
  let ci := r.1
  ("There are currently " ++ toString ci.ActiveSubs ++
    " active subscribers! The community has given " ++ toString ci.TotalGifts ++
    " gift subs and cheered " ++ toString ci.TotalCheers ++
    " bits, and the top gift subber is " ++ ci.TopGifter, r.2)

/-- The method `doCheer`. -/
def doCheer (cm : ChatMonitor σ) (t : User) (amount : Int) : String × ChatMonitor σ :=
  if amount < 0 then (t.DisplayName ++ ", stop trying to steal my bits! :(", cm)
  else if amount > 1000000 then
    (t.DisplayName ++ ", I can't allow you to be so generous! GivePLZ", cm)
  else
    let r := cm.callCheer t.Name amount
    match r.1 with
    | some err => (t.DisplayName ++ ", your cheer failed because `" ++ err ++ "`", r.2)
    | none =>
      let u := r.2.callUserInfo t.Name
      let c := u.2.callChannelInfo
      (t.DisplayName ++ ", thanks for cheering " ++ toString amount ++
        " bits, for a total of " ++ toString u.1.BitsCheered ++
        "! The community has given " ++ toString c.1.TotalCheers ++
        " bits, enough for a new " ++ c.1.Treat ++ "!", c.2)

/-- The method `CheckCheers`. -/
def CheckCheers (cm : ChatMonitor σ) (message : PrivateMessage) : String × ChatMonitor σ :=
  let total := cheerTotal message.Message
  if total > 0 then cm.doCheer message.User total else ("", cm)

/-- The method `Cheer`. The outer `none` is a fault inside `GetArgument`. -/
def Cheer (env : Env) (cm : ChatMonitor σ) (message : PrivateMessage) :
    Option (String × ChatMonitor σ) :=
  match GetArgument env 0 message with
  | none => none
  | some none => some ("To cheer, type !cheer <amount>, or Cheer100", cm)
  | some (some arg) =>
    match strconv.Atoi arg with
    | none => some (message.User.DisplayName ++ ", you must cheer a number.", cm)
    | some amount => some (cm.doCheer message.User amount)

/-- The statement `cm.Say(r)` for the reply `r` of a handler run on `cm`. -/
def sayReply (r : String × ChatMonitor σ) : ChatMonitor σ :=
  r.2.Say r.1

/-- The `switch` of `NewMessage` on the command `cmd`. -/
def dispatch (env : Env) (cm : ChatMonitor σ) (message : PrivateMessage) (cmd : String) :
    Option (ChatMonitor σ) :=
  if cmd = "giftsub" then (cm.GiftSub env message).map sayReply
  else if cmd = "sub" then some (sayReply (cm.Subscribe message))
  else if cmd = "me" then some (sayReply (cm.AboutMe env message))
  else if cmd = "cheer" then (cm.Cheer env message).map sayReply
  else if cmd = "stats" then some (sayReply cm.Stats)
  else some cm

/-- The method `NewMessage`. The outer `none` is a run-time fault. -/
def NewMessage (env : Env) (cm : ChatMonitor σ) (message : PrivateMessage) :
    Option (ChatMonitor σ) :=
  let r := cm.CheckCheers message
  if r.1 ≠ "" then some (r.2.Say r.1)
  else
    match GetCommand env message with
    | none => none
    | some cmd => dispatch env r.2 message cmd

/-! ## The delivery loop -/

/-- The loop of `SaySlowly` on the texts received from `cm.messages`, with the
current value of `lastMessage`: the sends and suspensions it performs. -/
def sayLoop (channel : String) : String → List String → List Event
  | _, [] => []
  | lastMessage, m :: rest =>
    if lastMessage = m then sayLoop channel lastMessage rest
    else Event.Say channel m :: Event.Sleep 4000000000 :: sayLoop channel m rest

/-- The method `SaySlowly`, run until the channel is closed after the texts in
`cm.messages`: the sends and suspensions it performs, in order. -/
def SaySlowly (cm : ChatMonitor σ) : List Event :=
  sayLoop cm.channel "" cm.messages

end ChatMonitor

/-- The texts of the sends in a trace, in order. -/
def deliveries : List Event → List String
  | [] => []
  | Event.Say _ text :: rest => text :: deliveries rest
  | Event.Sleep _ :: rest => deliveries rest

/-! ## Concrete instances for evaluation -/

/-- An environment for evaluation: the ASCII case table, durations printed as
whole seconds, and a clock that always reads zero. -/
def asciiEnv : Env where
  lower := Char.toLower
  lower_ascii := fun _ _ => rfl
  durationString := fun d => toString (d / 1000000000) ++ "s"
  clock := fun _ => 0

/-- A ledger without state for evaluation: every mutating call returns `err`, and
the two reading calls return `ui` and `ci`. -/
def fixedRepo (err : Option String) (ui : UserInfo) (ci : ChannelInfo) : LoyaltyRepo Unit where
  Subscribe := fun _ s => (err, s)
  Gift := fun _ _ s => (err, s)
  Cheer := fun _ _ s => (err, s)
  UserInfo := fun _ s => (ui, s)
  ChannelInfo := fun s => (ci, s)

/-- A chat monitor over `fixedRepo` with an empty channel buffer and no calls made. -/
def fixedMonitor (err : Option String) (ui : UserInfo) (ci : ChannelInfo) : ChatMonitor Unit where
  LoyaltyRepo := fixedRepo err ui ci
  store := ()
  channel := "channel"
  messages := []
  calls := []
  ticks := 0

/-- The user `alice`, displayed as `Alice`. -/
def alice : User := { Name := "alice", DisplayName := "Alice" }

/-- A user record with every counter at zero and no gifter. -/
def zeroUserInfo : UserInfo :=
  { MonthsSubbed := 0, LastSub := 0, GiftsGiven := 0, SubbedFrom := none, BitsCheered := 0 }

/-- A channel record with every counter at zero. -/
def zeroChannelInfo : ChannelInfo :=
  { ActiveSubs := 0, TotalGifts := 0, TotalCheers := 0, TopGifter := "" }

/-! ## The trace of the delivery loop in the words of the spec -/

/-- The trace that paced delivery of the texts `sent` makes: each text is sent once
and each send is followed by one suspension of 4 seconds. -/
def pacedTrace (channel : String) : List String → List Event
  | [] => []
  | m :: rest => Event.Say channel m :: Event.Sleep 4000000000 :: pacedTrace channel rest

/-- The lengths of the suspensions in a trace, in order. -/
def suspensions : List Event → List Nat
  | [] => []
  | Event.Say _ _ :: rest => suspensions rest
  | Event.Sleep nanoseconds :: rest => nanoseconds :: suspensions rest

/-! ## Start-up -/

/-- What `Monitor` does with the transport client and the delivery loop, in order. -/
inductive Step where
  | NewClient (name : String) (token : String)
  | OnConnect
  | Join (channel : String)
  | OnPrivateMessage
  | GoSaySlowly
  | Connect
  deriving DecidableEq, Repr

/-- The method `Monitor`. `getenv` is `os.Getenv`, which gives the empty text for a
variable that is not set, and `connect` is the error that `client.Connect()` returns.
The result is the error returned, the monitor as it is left, and the steps taken. The
field `Client` is not part of the embedding: its assignment is the step `NewClient`. -/
def ChatMonitor.Monitor {σ : Type} (getenv : String → String) (connect : Option String)
    (cm : ChatMonitor σ) : Option String × ChatMonitor σ × List Step :=
  let token := getenv "USER_OAUTH_TOKEN"
  let name := getenv "USER_NAME"
  if token.length = 0 then (some "error, USER_OAUTH_TOKEN variable empty", cm, [])
  else if name.length = 0 then (some "error, USER_NAME variable empty", cm, [])
  else
    let channel := getenv "USER_CHANNEL"
    if channel.length = 0 then
      (some "error, USER_CHANNEL variable empty", cm, [Step.NewClient name token, Step.OnConnect])
    else
      (connect, { cm with channel := channel },
        [Step.NewClient name token, Step.OnConnect, Step.Join channel, Step.OnPrivateMessage,
          Step.GoSaySlowly, Step.Connect])

/-- The three configuration variables, in the order in which `Monitor` tests them. -/
def requiredVariables : List String :=
  ["USER_OAUTH_TOKEN", "USER_NAME", "USER_CHANNEL"]

/-- An environment for evaluation in which the listed variables are set and every
other variable is not. -/
def environment (vars : List (String × String)) (name : String) : String :=
  match vars.find? (fun v => v.1 = name) with
  | some v => v.2
  | none => ""

/-! ## Lemmas: strings and machine integers -/

theorem append_ne_empty (a b : String) (h : 0 < b.length) : a ++ b ≠ "" := by
  intro hab
  have hlen := congrArg String.length hab
  rw [String.length_append] at hlen
  have h0 : "".length = 0 := rfl
  omega

theorem splitChars_ne_nil (sep : Char) (cs : List Char) : strings.splitChars sep cs ≠ [] := by
  cases cs with
  | nil => simp [strings.splitChars]
  | cons c cs =>
    unfold strings.splitChars
    split
    · simp
    · split <;> simp

theorem Split_ne_nil (s : String) (sep : Char) : strings.Split s sep ≠ [] := by
  simp [strings.Split, splitChars_ne_nil]

theorem GetCommand_eq (env : Env) (message : PrivateMessage) :
    ∃ first rest, strings.Split message.Message ' ' = first :: rest ∧
      GetCommand env message = some (strings.TrimPrefix (strings.ToLower env first) "!") := by
  cases h : strings.Split message.Message ' ' with
  | nil => exact absurd h (Split_ne_nil _ _)
  | cons first rest =>
    refine ⟨first, rest, rfl, ?_⟩
    simp [GetCommand, h, index]

theorem wrapInt_one : wrapInt (0 + 1) = 1 := by decide

theorem GetArgument_zero_ne_none (env : Env) (message : PrivateMessage) :
    GetArgument env 0 message ≠ none := by
  unfold GetArgument
  rw [wrapInt_one]
  simp only []
  split
  · simp
  · rename_i hlen
    have h1 : 1 < (strings.Split message.Message ' ').length := by omega
    have h2 : (index (strings.Split message.Message ' ') 1) = some ((strings.Split message.Message ' ')[1]) := by
      simp [index, h1]
    rw [h2]
    simp

namespace ChatMonitor

variable {σ : Type}

/-! ## Lemmas: the handlers leave the channel buffer alone and never reply with the empty text -/

theorem doCheer_messages (cm : ChatMonitor σ) (t : User) (amount : Int) :
    (cm.doCheer t amount).2.messages = cm.messages := by
  unfold doCheer
  split
  · rfl
  · split
    · rfl
    · simp only []
      split <;> rfl

theorem doCheer_ne_empty (cm : ChatMonitor σ) (t : User) (amount : Int) :
    (cm.doCheer t amount).1 ≠ "" := by
  unfold doCheer
  split
  · exact append_ne_empty _ _ (by decide)
  · split
    · exact append_ne_empty _ _ (by decide)
    · simp only []
      split
      · exact append_ne_empty _ _ (by decide)
      · exact append_ne_empty _ _ (by decide)

theorem Subscribe_messages (cm : ChatMonitor σ) (message : PrivateMessage) :
    (cm.Subscribe message).2.messages = cm.messages := by
  unfold Subscribe
  simp only []
  split <;> rfl

theorem subscriptionPart_messages (env : Env) (cm : ChatMonitor σ) (info : UserInfo) (subbed : Bool) :
    (subscriptionPart env cm info subbed).2.messages = cm.messages := by
  unfold subscriptionPart
  split <;> rfl

theorem AboutMe_messages (env : Env) (cm : ChatMonitor σ) (message : PrivateMessage) :
    (cm.AboutMe env message).2.messages = cm.messages := by
  unfold AboutMe
  simp only [subscriptionPart_messages]
  rfl

theorem Stats_messages (cm : ChatMonitor σ) : cm.Stats.2.messages = cm.messages := rfl

theorem GiftSub_messages (env : Env) (cm : ChatMonitor σ) (message : PrivateMessage) :
    ∃ r, cm.GiftSub env message = some r ∧ r.2.messages = cm.messages := by
  unfold GiftSub
  split
  · rename_i h
    exact absurd h (GetArgument_zero_ne_none env message)
  · exact ⟨_, rfl, rfl⟩
  · simp only []
    split
    · exact ⟨_, rfl, rfl⟩
    · exact ⟨_, rfl, rfl⟩

theorem Cheer_messages (env : Env) (cm : ChatMonitor σ) (message : PrivateMessage) :
    ∃ r, cm.Cheer env message = some r ∧ r.2.messages = cm.messages := by
  unfold Cheer
  split
  · rename_i h
    exact absurd h (GetArgument_zero_ne_none env message)
  · exact ⟨_, rfl, rfl⟩
  · split
    · exact ⟨_, rfl, rfl⟩
    · exact ⟨_, rfl, doCheer_messages _ _ _⟩

theorem sayReply_messages (r : String × ChatMonitor σ) :
    (sayReply r).messages = r.2.messages ++ [r.1] := rfl

theorem dispatch_recognised (env : Env) (cm : ChatMonitor σ) (message : PrivateMessage)
    (cmd : String) (h : cmd ∈ ["giftsub", "sub", "me", "cheer", "stats"]) :
    ∃ cm' reply, dispatch env cm message cmd = some cm' ∧ cm'.messages = cm.messages ++ [reply] := by
  unfold dispatch
  split
  · obtain ⟨r, hr, hm⟩ := GiftSub_messages env cm message
    exact ⟨sayReply r, r.1, by rw [hr]; rfl, by rw [sayReply_messages, hm]⟩
  · split
    · exact ⟨_, _, rfl, by rw [sayReply_messages, Subscribe_messages]⟩
    · split
      · exact ⟨_, _, rfl, by rw [sayReply_messages, AboutMe_messages]⟩
      · split
        · obtain ⟨r, hr, hm⟩ := Cheer_messages env cm message
          exact ⟨sayReply r, r.1, by rw [hr]; rfl, by rw [sayReply_messages, hm]⟩
        · split
          · exact ⟨_, _, rfl, by rw [sayReply_messages, Stats_messages]⟩
          · simp at h
            rcases h with h | h | h | h | h <;> contradiction

theorem dispatch_unrecognised (env : Env) (cm : ChatMonitor σ) (message : PrivateMessage)
    (cmd : String) (h : cmd ∉ ["giftsub", "sub", "me", "cheer", "stats"]) :
    dispatch env cm message cmd = some cm := by
  simp at h
  obtain ⟨h1, h2, h3, h4, h5⟩ := h
  simp [dispatch, h1, h2, h3, h4, h5]

theorem NewMessage_eq (env : Env) (cm : ChatMonitor σ) (message : PrivateMessage) :
    cm.NewMessage env message =
      if cheerTotal message.Message > 0
      then some (sayReply (cm.doCheer message.User (cheerTotal message.Message)))
      else (GetCommand env message).bind (dispatch env cm message) := by
  unfold NewMessage CheckCheers
  simp only []
  by_cases h : cheerTotal message.Message > 0
  · simp only [h, if_true]
    rw [if_pos (doCheer_ne_empty _ _ _)]
    rfl
  · simp only [h, if_false]
    rw [if_neg (by simp)]
    cases GetCommand env message <;> rfl

theorem doCheer_rejected (cm : ChatMonitor σ) (t : User) (amount : Int) :
    (amount < 0 → cm.doCheer t amount =
      (t.DisplayName ++ ", stop trying to steal my bits! :(", cm)) ∧
    (amount > 1000000 → cm.doCheer t amount =
      (t.DisplayName ++ ", I can't allow you to be so generous! GivePLZ", cm)) := by
  refine ⟨fun h => ?_, fun h => ?_⟩
  · simp [doCheer, h]
  · have : ¬ amount < 0 := by omega
    simp [doCheer, h, this]

theorem doCheer_accepted (cm : ChatMonitor σ) (t : User) (amount : Int)
    (h0 : 0 ≤ amount) (h1 : amount ≤ 1000000) :
    (cm.doCheer t amount).2.calls = cm.calls ++ [LedgerCall.Cheer t.Name amount] ∨
    (cm.doCheer t amount).2.calls = cm.calls ++
      [LedgerCall.Cheer t.Name amount, LedgerCall.UserInfo t.Name, LedgerCall.ChannelInfo] := by
  have h0' : ¬ amount < 0 := by omega
  have h1' : ¬ amount > 1000000 := by omega
  unfold doCheer
  rw [if_neg h0', if_neg h1']
  simp only []
  split
  · left; rfl
  · right
    simp [callCheer, callUserInfo, callChannelInfo]

theorem doCheer_calls (cm : ChatMonitor σ) (t : User) (amount : Int) :
    ∃ extra, (cm.doCheer t amount).2.calls = cm.calls ++ extra ∧
      extra <+: [LedgerCall.Cheer t.Name amount, LedgerCall.UserInfo t.Name,
        LedgerCall.ChannelInfo] := by
  by_cases h0 : amount < 0
  · exact ⟨[], by rw [(doCheer_rejected cm t amount).1 h0]; simp, List.nil_prefix⟩
  · by_cases h1 : amount > 1000000
    · exact ⟨[], by rw [(doCheer_rejected cm t amount).2 h1]; simp, List.nil_prefix⟩
    · rcases doCheer_accepted cm t amount (by omega) (by omega) with h | h
      · exact ⟨_, h, ⟨_, rfl⟩⟩
      · exact ⟨_, h, List.prefix_rfl⟩

/-! ## Lemmas: the delivery loop -/

theorem destutter'_head (a : String) (l : List String) :
    List.destutter' (· ≠ ·) a l = a :: (List.destutter' (· ≠ ·) a l).tail := by
  induction l generalizing a with
  | nil => simp
  | cons b l ih =>
    by_cases h : a = b
    · subst h
      rw [List.destutter'_cons_neg _ (by simp)]
      exact ih a
    · rw [List.destutter'_cons_pos _ h]
      simp

theorem deliveries_sayLoop (channel lastMessage : String) (ms : List String) :
    deliveries (sayLoop channel lastMessage ms) =
      (List.destutter' (· ≠ ·) lastMessage ms).tail := by
  induction ms generalizing lastMessage with
  | nil => simp [sayLoop, deliveries]
  | cons m rest ih =>
    by_cases h : lastMessage = m
    · subst h
      rw [List.destutter'_cons_neg _ (by simp)]
      simp only [sayLoop, if_true]
      exact ih lastMessage
    · rw [List.destutter'_cons_pos _ h]
      simp only [sayLoop, if_neg h, deliveries, List.tail_cons]
      rw [ih m]
      exact (destutter'_head m rest).symm

theorem deliveries_SaySlowly (cm : ChatMonitor σ) (h : cm.messages.head? ≠ some "") :
    deliveries cm.SaySlowly = cm.messages.destutter (· ≠ ·) := by
  unfold SaySlowly
  rw [deliveries_sayLoop]
  cases hm : cm.messages with
  | nil => simp
  | cons m rest =>
    have hne : "" ≠ m := by
      intro he
      apply h
      rw [hm, ← he]
      rfl
    rw [List.destutter'_cons_pos _ hne]
    simp [List.destutter]

end ChatMonitor

/-! ## Lemmas: the cheer scanner -/

theorem wrapInt_of_range (x : Int) (h0 : minInt ≤ x) (h1 : x ≤ maxInt) : wrapInt x = x := by
  unfold minInt at h0
  unfold maxInt at h1
  unfold wrapInt
  omega

theorem wrapInt_add_left (a b : Int) : wrapInt (wrapInt a + b) = wrapInt (a + b) := by
  unfold wrapInt
  omega

theorem wrapInt_idem (x : Int) : wrapInt (wrapInt x) = wrapInt x := by
  unfold wrapInt
  omega

theorem wrapInt_range (x : Int) : minInt ≤ wrapInt x ∧ wrapInt x ≤ maxInt := by
  unfold wrapInt minInt maxInt
  omega

theorem prefixes_incomparable :
    prefixes.Pairwise (fun a b => a.data.isPrefixOf b.data = false ∧
      b.data.isPrefixOf a.data = false) := by
  decide

theorem prefixes_one_match (p : String) :
    prefixes.Pairwise (fun a b => ¬ (strings.HasPrefix p a = true ∧ strings.HasPrefix p b = true)) := by
  refine prefixes_incomparable.imp ?_
  rintro a b ⟨hab, hba⟩ ⟨ha, hb⟩
  unfold strings.HasPrefix at ha hb
  rw [List.isPrefixOf_iff_prefix] at ha hb
  rcases List.prefix_or_prefix_of_prefix ha hb with h | h
  · rw [← List.isPrefixOf_iff_prefix] at h
    rw [h] at hab
    exact Bool.noConfusion hab
  · rw [← List.isPrefixOf_iff_prefix] at h
    rw [h] at hba
    exact Bool.noConfusion hba

theorem foldl_cheerStep_no_match (p : String) (l : List String) (total : Int)
    (h : ∀ pre ∈ l, strings.HasPrefix p pre = false) :
    l.foldl (cheerStep p) total = total := by
  induction l generalizing total with
  | nil => rfl
  | cons a l ih =>
    have ha : strings.HasPrefix p a = false := h a (List.mem_cons_self _ _)
    have hstep : cheerStep p total a = total := by simp [cheerStep, ha]
    rw [List.foldl_cons, hstep]
    exact ih total (fun pre hpre => h pre (List.mem_cons_of_mem _ hpre))

theorem foldl_cheerStep (p : String) (l : List String) (total : Int)
    (h : l.Pairwise (fun a b => ¬ (strings.HasPrefix p a = true ∧ strings.HasPrefix p b = true))) :
    l.foldl (cheerStep p) total =
      match (l.find? (fun pre => strings.HasPrefix p pre)).bind
          (fun pre => strconv.Atoi (String.mk (p.data.drop pre.data.length))) with
      | some amt => wrapInt (total + amt)
      | none => total := by
  induction l generalizing total with
  | nil => rfl
  | cons a l ih =>
    rw [List.pairwise_cons] at h
    rw [List.foldl_cons]
    by_cases ha : strings.HasPrefix p a = true
    · have hrest : ∀ pre ∈ l, strings.HasPrefix p pre = false := by
        intro pre hpre
        have := h.1 pre hpre
        cases hp : strings.HasPrefix p pre
        · rfl
        · exact absurd ⟨ha, hp⟩ this
      rw [foldl_cheerStep_no_match p l _ hrest]
      simp only [List.find?_cons, ha]
      simp only [cheerStep, ha, if_true, strings.TrimPrefix]
      rfl
    · have ha' : strings.HasPrefix p a = false := by simpa using ha
      have hstep : cheerStep p total a = total := by simp [cheerStep, ha']
      rw [hstep, ih total h.2]
      simp only [List.find?_cons, ha']

theorem foldl_prefixes (p : String) (total : Int) :
    prefixes.foldl (cheerStep p) total =
      match tokenAmount p with
      | some amt => wrapInt (total + amt)
      | none => total :=
  foldl_cheerStep p prefixes total (prefixes_one_match p)

theorem foldl_pieces (ps : List String) (total : Int) (ht : wrapInt total = total) :
    ps.foldl (fun total p => prefixes.foldl (cheerStep p) total) total =
      wrapInt (total + (ps.filterMap tokenAmount).sum) := by
  induction ps generalizing total with
  | nil => simp [ht]
  | cons p ps ih =>
    rw [List.foldl_cons, foldl_prefixes]
    cases hp : tokenAmount p with
    | none =>
      simp only [List.filterMap_cons, hp]
      exact ih total ht
    | some amt =>
      simp only [List.filterMap_cons, hp, List.sum_cons]
      rw [ih (wrapInt (total + amt)) (wrapInt_idem _)]
      rw [wrapInt_add_left, Int.add_assoc]

theorem cheerTotal_eq_wrapInt_cheerSum (text : String) :
    cheerTotal text = wrapInt (cheerSum text) := by
  unfold cheerTotal cheerSum
  rw [foldl_pieces _ 0 (by decide), Int.zero_add]

/-! ## Lemmas: the command parser -/

theorem splitChars_head (sep : Char) (cs : List Char) :
    (strings.splitChars sep cs).head? = some (cs.takeWhile (fun c => decide (c ≠ sep))) := by
  induction cs with
  | nil => rfl
  | cons c cs ih =>
    unfold strings.splitChars
    by_cases h : c = sep
    · simp [h]
    · rw [if_neg h]
      cases hs : strings.splitChars sep cs with
      | nil => exact absurd hs (splitChars_ne_nil sep cs)
      | cons t ts =>
        rw [hs] at ih
        simp at ih
        simp [h, ih]

theorem TrimPrefix_marker (s : String) (marker : Char) :
    strings.TrimPrefix s (String.mk [marker]) = String.mk (stripMarker marker s.data) := by
  unfold strings.TrimPrefix strings.HasPrefix
  cases hs : s.data with
  | nil =>
    have : s = String.mk [] := by rw [← hs]
    simp [List.isPrefixOf, stripMarker, this]
  | cons c cs =>
    by_cases h : c = marker
    · subst h
      simp [List.isPrefixOf, stripMarker]
    · have h' : ¬ marker = c := fun e => h e.symm
      simp [List.isPrefixOf, stripMarker, h, h']
      rw [← hs]

theorem GetCommand_spec (env : Env) (message : PrivateMessage) :
    GetCommand env message = some (String.mk (stripMarker '!'
      ((message.Message.data.takeWhile (fun c => decide (c ≠ ' '))).map env.lower))) := by
  have hhead := splitChars_head ' ' message.Message.data
  unfold GetCommand strings.Split index
  cases hs : strings.splitChars ' ' message.Message.data with
  | nil => exact absurd hs (splitChars_ne_nil _ _)
  | cons t ts =>
    rw [hs] at hhead
    simp at hhead
    have hbang : ("!" : String) = String.mk ['!'] := rfl
    simp only [List.map_cons, Int.toNat_zero, List.getElem?_cons_zero, lt_self_iff_false, if_false]
    rw [hbang, TrimPrefix_marker, strings.ToLower, hhead]
    simp

theorem GetArgument_spec (env : Env) (n : Int) (message : PrivateMessage)
    (h0 : 0 ≤ n) (h1 : n < maxInt) :
    GetArgument env n message =
      some (((strings.Split message.Message ' ')[n.toNat + 1]?).map
        (fun part => String.mk (stripMarker '@' (part.data.map env.lower)))) := by
  have hw : wrapInt (n + 1) = n + 1 := by
    unfold maxInt at h1
    unfold wrapInt
    omega
  have hat : ("@" : String) = String.mk ['@'] := rfl
  unfold GetArgument
  simp only [hw]
  have hnat : (n + 1).toNat = n.toNat + 1 := by omega
  split
  · rename_i hge
    have hlen : (strings.Split message.Message ' ').length ≤ n.toNat + 1 := by omega
    rw [List.getElem?_eq_none hlen]
    rfl
  · rename_i hlt
    have hlen : n.toNat + 1 < (strings.Split message.Message ' ').length := by omega
    have hneg : ¬ (n + 1 < 0) := by omega
    simp only [index, if_neg hneg, hnat, List.getElem?_eq_getElem hlen, Option.map_some']
    rw [hat, TrimPrefix_marker, strings.ToLower]

/-! ## Lemmas: the trace of the delivery loop -/

theorem sayLoop_paced (channel lastMessage : String) (ms : List String) :
    ChatMonitor.sayLoop channel lastMessage ms =
      pacedTrace channel (deliveries (ChatMonitor.sayLoop channel lastMessage ms)) := by
  induction ms generalizing lastMessage with
  | nil => rfl
  | cons m rest ih =>
    by_cases h : lastMessage = m
    · simp only [ChatMonitor.sayLoop, if_pos h]
      exact ih lastMessage
    · simp only [ChatMonitor.sayLoop, if_neg h, deliveries, pacedTrace]
      rw [← ih m]

theorem suspensions_paced (channel : String) (sent : List String) :
    suspensions (pacedTrace channel sent) = List.replicate sent.length 4000000000 := by
  induction sent with
  | nil => rfl
  | cons m rest ih => simp [pacedTrace, suspensions, ih, List.replicate_succ]

theorem paced_say_then_sleep (channel : String) (sent : List String) :
    ∀ (i : Nat) (c text : String), (pacedTrace channel sent)[i]? = some (Event.Say c text) →
      (pacedTrace channel sent)[i + 1]? = some (Event.Sleep 4000000000) := by
  induction sent with
  | nil => intro i c text h; simp [pacedTrace] at h
  | cons m rest ih =>
    intro i c text h
    match i with
    | 0 => simp [pacedTrace]
    | 1 => simp [pacedTrace] at h
    | k + 2 =>
      simp only [pacedTrace, List.getElem?_cons_succ] at h ⊢
      exact ih k c text h

theorem paced_sleep_then_say (channel : String) (sent : List String) :
    ∀ (i n : Nat), (pacedTrace channel sent)[i]? = some (Event.Sleep n) →
      (pacedTrace channel sent)[i + 1]? = none ∨
      ∃ text, (pacedTrace channel sent)[i + 1]? = some (Event.Say channel text) := by
  induction sent with
  | nil => intro i n h; simp [pacedTrace] at h
  | cons m rest ih =>
    intro i n h
    match i with
    | 0 => simp [pacedTrace] at h
    | 1 =>
      cases rest with
      | nil => left; simp [pacedTrace]
      | cons m2 rest2 => right; exact ⟨m2, by simp [pacedTrace]⟩
    | k + 2 =>
      simp only [pacedTrace, List.getElem?_cons_succ] at h ⊢
      exact ih k n h

theorem sayLoop_dropWhile_empty (channel : String) (ms : List String) :
    ChatMonitor.sayLoop channel "" ms =
      ChatMonitor.sayLoop channel "" (ms.dropWhile (fun m => decide (m = ""))) := by
  induction ms with
  | nil => rfl
  | cons m rest ih =>
    by_cases h : m = ""
    · subst h
      simp only [List.dropWhile, decide_True]
      rw [← ih]
      simp [ChatMonitor.sayLoop]
    · simp [List.dropWhile, h]

/-! ## Lemmas: at most one emote name starts a token -/

theorem filter_length_le_one {α : Type} (P : α → Bool) (l : List α)
    (h : l.Pairwise (fun a b => ¬ (P a = true ∧ P b = true))) :
    (l.filter P).length ≤ 1 := by
  induction l with
  | nil => simp
  | cons a l ih =>
    rw [List.pairwise_cons] at h
    by_cases ha : P a = true
    · have hnone : l.filter P = [] := by
        rw [List.filter_eq_nil_iff]
        intro b hb hPb
        exact h.1 b hb ⟨ha, hPb⟩
      simp [List.filter_cons, ha, hnone]
    · have ha' : P a = false := by simpa using ha
      simp only [List.filter_cons, ha']
      exact ih h.2

/-! ## Lemmas: the parts of the `AboutMe` reply -/

theorem lastChar_append (a b : String) (c : Char) (h : b.data.getLast? = some c) :
    (a ++ b).data.getLast? = some c := by
  rw [String.data_append, List.getLast?_append, h]
  rfl

theorem subscriptionPart_calls {σ : Type} (env : Env) (cm : ChatMonitor σ) (info : UserInfo)
    (subbed : Bool) : (ChatMonitor.subscriptionPart env cm info subbed).2.calls = cm.calls := by
  unfold ChatMonitor.subscriptionPart
  split <;> rfl

theorem subscriptionPart_text {σ : Type} (env : Env) (cm : ChatMonitor σ) (info : UserInfo)
    (subbed : Bool) :
    (ChatMonitor.subscriptionPart env cm info subbed).1 = "are not currently subscribed" ↔
      subbed = false := by
  cases subbed with
  | false => simp [ChatMonitor.subscriptionPart]
  | true =>
    simp only [ChatMonitor.subscriptionPart, Bool.not_true, Bool.false_eq_true, if_false]
    constructor
    · intro h
      have hl := congrArg (fun s : String => s.data.getLast?) h
      simp only [] at hl
      rw [lastChar_append _ " ago" 'o' (by decide)] at hl
      exact absurd hl (by decide)
    · intro h
      exact Bool.noConfusion h

theorem giftsPart_zero (info : UserInfo) :
    ChatMonitor.giftsPart info = "have given 0 gift subs to the community" ↔
      info.GiftsGiven = 0 := by
  unfold ChatMonitor.giftsPart
  by_cases h : info.GiftsGiven = 0
  · simp [h]
  · rw [if_neg h]
    simp only [h, iff_false]
    intro he
    have hl := congrArg (fun s : String => s.data.getLast?) he
    simp only [] at hl
    rw [lastChar_append _ " gift subs" 's' (by decide)] at hl
    exact absurd hl (by decide)

theorem cheerPart_zero (info : UserInfo) :
    ChatMonitor.cheerPart info = "have not cheered" ↔ info.BitsCheered = 0 := by
  unfold ChatMonitor.cheerPart
  by_cases h : info.BitsCheered = 0
  · simp [h]
  · rw [if_neg h]
    simp only [h, iff_false]
    intro he
    have hl := congrArg (fun s : String => s.data.getLast?) he
    simp only [] at hl
    rw [lastChar_append _ " bits" 's' (by decide)] at hl
    exact absurd hl (by decide)

theorem not_subbed_iff (now lastSub : Int) :
    decide (time.Sub now lastSub < 1 * time.Hour * 24 * 30) = false ↔
      720 * time.Hour ≤ now - lastSub := by
  unfold time.Sub time.Hour maxInt minInt
  simp only [decide_eq_false_iff_not]
  split
  · omega
  · split <;> omega

/-! ## Lemmas: start-up -/

theorem length_eq_zero_iff (s : String) : s.length = 0 ↔ s = "" := by
  constructor
  · intro h
    have hd : s.data = [] := List.length_eq_zero.mp h
    exact String.ext hd
  · intro h
    rw [h]
    rfl

/-! ## Lemmas: a text with and without the command marker -/

theorem digit_lower (env : Env) (d : Char) (h : d.isDigit = true) : env.lower d = d := by
  have hv : 48 ≤ d.toNat ∧ d.toNat ≤ 57 := by
    simp only [Char.isDigit, Bool.and_eq_true, decide_eq_true_eq, ge_iff_le] at h
    exact ⟨h.1, h.2⟩
  have hl : d.toLower = d := by
    unfold Char.toLower
    simp only []
    rw [if_neg (by omega)]
  rw [env.lower_ascii d (by omega), hl]

theorem Atoi_last_digit (s : String) (a : Int) (h : strconv.Atoi s = some a) :
    ∃ d, s.data.getLast? = some d ∧ d.isDigit = true := by
  unfold strconv.Atoi at h
  cases hs : s.data with
  | nil => rw [hs] at h; simp at h
  | cons c rest =>
    rw [hs] at h
    simp only [] at h
    by_cases hsign : c = '-' ∨ c = '+'
    · simp only [hsign, if_true] at h
      cases rest with
      | nil => simp at h
      | cons r rs =>
        by_cases hall : (r :: rs).all Char.isDigit = true
        · have hne : (r :: rs) ≠ [] := by simp
          refine ⟨(r :: rs).getLast hne, ?_, ?_⟩
          · rw [List.getLast?_cons_cons, List.getLast?_eq_getLast _ hne]
          · exact List.all_eq_true.mp hall _ (List.getLast_mem hne)
        · simp [hall] at h
    · simp only [hsign, if_false] at h
      by_cases hall : (c :: rest).all Char.isDigit = true
      · have hne : (c :: rest) ≠ [] := by simp
        refine ⟨(c :: rest).getLast hne, ?_, ?_⟩
        · rw [List.getLast?_eq_getLast _ hne]
        · exact List.all_eq_true.mp hall _ (List.getLast_mem hne)
      · simp [hall] at h

theorem tokenAmount_marked (cs : List Char) : tokenAmount (String.mk ('!' :: cs)) = none := by
  have hhead : ∀ pre ∈ prefixes, pre.data ≠ [] ∧ pre.data.head? ≠ some '!' := by decide
  have hfind : prefixes.find? (fun pre => strings.HasPrefix (String.mk ('!' :: cs)) pre) = none := by
    rw [List.find?_eq_none]
    intro pre hpre
    have h1 := hhead pre hpre
    unfold strings.HasPrefix
    cases hd : pre.data with
    | nil => rw [hd] at h1; exact absurd rfl h1.1
    | cons c ps =>
      rw [hd] at h1
      have hc : ¬ c = '!' := fun e => h1.2 (by rw [e]; rfl)
      simp [List.isPrefixOf, hc]
  unfold tokenAmount
  rw [hfind]
  rfl

theorem Split_marked (text : String) :
    ∃ first rest, strings.Split text ' ' = first :: rest ∧
      first.data = text.data.takeWhile (fun c => decide (c ≠ ' ')) ∧
      strings.Split ("!" ++ text) ' ' = String.mk ('!' :: first.data) :: rest := by
  have hd : ("!" ++ text).data = '!' :: text.data := by
    rw [String.data_append]
    rfl
  have hhead := splitChars_head ' ' text.data
  unfold strings.Split
  rw [hd]
  cases hs : strings.splitChars ' ' text.data with
  | nil => exact absurd hs (splitChars_ne_nil _ _)
  | cons t ts =>
    rw [hs] at hhead
    simp only [List.head?_cons, Option.some.injEq] at hhead
    refine ⟨String.mk t, ts.map String.mk, by simp, hhead, ?_⟩
    simp [strings.splitChars, hs]

theorem GetCommand_marked (env : Env) (hmark : ∀ c, env.lower c = '!' → c = '!')
    (u : User) (text : String) (h : text.data.head? ≠ some '!') :
    ∃ first rest, strings.Split text ' ' = first :: rest ∧
      strings.Split ("!" ++ text) ' ' = String.mk ('!' :: first.data) :: rest ∧
      GetCommand env ⟨u, text⟩ = some (strings.ToLower env first) ∧
      GetCommand env ⟨u, "!" ++ text⟩ = some (strings.ToLower env first) := by
  obtain ⟨first, rest, hs, hfirst, hsm⟩ := Split_marked text
  have hbang : ("!" : String) = String.mk ['!'] := rfl
  have hlow : env.lower '!' = '!' := env.lower_ascii '!' (by decide)
  refine ⟨first, rest, hs, hsm, ?_, ?_⟩
  · obtain ⟨f, r, hs', hc⟩ := GetCommand_eq env ⟨u, text⟩
    simp only [] at hs'
    rw [hs] at hs'
    have hf : f = first := by
      have := List.cons.inj hs'
      exact this.1.symm
    rw [hc, hf, hbang, TrimPrefix_marker]
    simp only [strings.ToLower]
    cases hdata : first.data with
    | nil => rfl
    | cons c cs =>
      have hc0 : text.data.head? = some c := by
        rw [hdata] at hfirst
        cases ht : text.data with
        | nil => rw [ht] at hfirst; simp at hfirst
        | cons t ts =>
          rw [ht] at hfirst
          by_cases hsp : t = ' '
          · simp [List.takeWhile, hsp] at hfirst
          · simp [List.takeWhile, hsp] at hfirst
            simp [hfirst.1]
      have hne : ¬ env.lower c = '!' := by
        intro he
        apply h
        rw [hc0, hmark c he]
      simp [stripMarker, hne]
  · obtain ⟨f, r, hs', hc⟩ := GetCommand_eq env ⟨u, "!" ++ text⟩
    simp only [] at hs'
    rw [hsm] at hs'
    have hf : f = String.mk ('!' :: first.data) := by
      have := List.cons.inj hs'
      exact this.1.symm
    rw [hc, hf, hbang, TrimPrefix_marker]
    simp [strings.ToLower, stripMarker, hlow]

theorem tokenAmount_of_command (env : Env) (first cmd : String)
    (hcmd : cmd ∈ ["giftsub", "sub", "me", "cheer", "stats"])
    (h : strings.ToLower env first = cmd) : tokenAmount first = none := by
  cases ht : tokenAmount first with
  | none => rfl
  | some a =>
    exfalso
    unfold tokenAmount at ht
    cases hf : prefixes.find? (fun pre => strings.HasPrefix first pre) with
    | none => rw [hf] at ht; simp at ht
    | some pre =>
      rw [hf] at ht
      have ht' : strconv.Atoi (String.mk (first.data.drop pre.data.length)) = some a := ht
      obtain ⟨d, hlast, hdigit⟩ := Atoi_last_digit _ a ht'
      simp only [] at hlast
      rw [List.getLast?_drop] at hlast
      split at hlast
      · exact Option.noConfusion hlast
      · have hl : (first.data.map env.lower).getLast? = some d := by
          rw [List.getLast?_map, hlast]
          simp [digit_lower env d hdigit]
        have hdata : cmd.data = first.data.map env.lower := by
          rw [← h]
          rfl
        rw [← hdata] at hl
        simp only [List.mem_cons, List.mem_singleton, List.not_mem_nil, or_false] at hcmd
        rcases hcmd with rfl | rfl | rfl | rfl | rfl
        all_goals
          have hd := Option.some.inj hl
          rw [← hd] at hdigit
          exact absurd hdigit (by decide)

theorem cheerTotal_marked (env : Env) (text first cmd : String) (rest : List String)
    (hs : strings.Split text ' ' = first :: rest)
    (hsm : strings.Split ("!" ++ text) ' ' = String.mk ('!' :: first.data) :: rest)
    (hcmd : cmd ∈ ["giftsub", "sub", "me", "cheer", "stats"])
    (h : strings.ToLower env first = cmd) :
    cheerTotal ("!" ++ text) = cheerTotal text := by
  rw [cheerTotal_eq_wrapInt_cheerSum, cheerTotal_eq_wrapInt_cheerSum]
  unfold cheerSum
  rw [hs, hsm]
  simp only [List.filterMap_cons, tokenAmount_marked, tokenAmount_of_command env first cmd hcmd h]

theorem GetArgument_marked (env : Env) (u : User) (text first : String) (rest : List String)
    (hs : strings.Split text ' ' = first :: rest)
    (hsm : strings.Split ("!" ++ text) ' ' = String.mk ('!' :: first.data) :: rest) :
    GetArgument env 0 ⟨u, "!" ++ text⟩ = GetArgument env 0 ⟨u, text⟩ := by
  rw [GetArgument_spec env 0 _ (by decide) (by decide),
    GetArgument_spec env 0 _ (by decide) (by decide)]
  simp only [hs, hsm, Int.toNat_zero, Nat.zero_add, List.getElem?_cons_succ]

theorem dispatch_marked {σ : Type} (env : Env) (cm : ChatMonitor σ) (u : User)
    (text marked cmd : String)
    (harg : GetArgument env 0 ⟨u, marked⟩ = GetArgument env 0 ⟨u, text⟩) :
    ChatMonitor.dispatch env cm ⟨u, marked⟩ cmd = ChatMonitor.dispatch env cm ⟨u, text⟩ cmd := by
  have hg : cm.GiftSub env ⟨u, marked⟩ = cm.GiftSub env ⟨u, text⟩ := by
    unfold ChatMonitor.GiftSub
    rw [harg]
  have hc : cm.Cheer env ⟨u, marked⟩ = cm.Cheer env ⟨u, text⟩ := by
    unfold ChatMonitor.Cheer
    rw [harg]
  unfold ChatMonitor.dispatch
  rw [hg, hc]
  rfl

theorem toLower_marker (c : Char) (h : c.toLower = '!') : c = '!' := by
  unfold Char.toLower at h
  simp only [] at h
  split at h
  · rename_i hr
    exfalso
    generalize c.toNat = n at hr h
    obtain ⟨h1, h2⟩ := hr
    interval_cases n <;> exact absurd h (by decide)
  · exact h

/-! ## Lemmas: what `NewMessage` leaves behind, handler by handler -/

theorem sayReply_eq {σ : Type} (r : String × ChatMonitor σ) (queue : List String)
    (h : r.2.messages = queue) :
    ChatMonitor.sayReply r = { r.2 with messages := queue ++ [r.1] } := by
  subst h
  rfl

theorem dropWhile_empty_head (ms : List String) :
    (ms.dropWhile (fun m => decide (m = ""))).head? ≠ some "" := by
  induction ms with
  | nil => simp
  | cons m rest ih =>
    by_cases h : m = ""
    · subst h
      simpa [List.dropWhile] using ih
    · simp [List.dropWhile, h]

theorem sayLoop_leading_empty (channel : String) (n : Nat) (ms : List String) :
    ChatMonitor.sayLoop channel "" (List.replicate n "" ++ ms) =
      ChatMonitor.sayLoop channel "" ms := by
  induction n with
  | zero => rfl
  | succ k ih =>
    rw [List.replicate_succ, List.cons_append]
    simp only [ChatMonitor.sayLoop, if_true]
    exact ih

/-! ## The claims -/

/-- C1. `NewMessage` never faults; it enqueues exactly one item when the cheer total is
positive or the keyword of `GetCommand` is one of `giftsub`, `sub`, `me`, `cheer`, `stats`,
and in every other case it leaves the monitor as it was: nothing enqueued, no ledger call. -/
theorem C1_newMessage_one_reply_or_none {σ : Type} (env : Env) (cm : ChatMonitor σ)
    (message : PrivateMessage) :
    ∃ cmd cm', GetCommand env message = some cmd ∧ cm.NewMessage env message = some cm' ∧
      if cheerTotal message.Message > 0 ∨ cmd ∈ ["giftsub", "sub", "me", "cheer", "stats"]
      then ∃ reply, cm'.messages = cm.messages ++ [reply]
      else cm' = cm := by
  obtain ⟨first, rest, -, hcmd⟩ := GetCommand_eq env message
  rw [ChatMonitor.NewMessage_eq, hcmd]
  by_cases ht : cheerTotal message.Message > 0
  · refine ⟨_, _, rfl, if_pos ht, ?_⟩
    rw [if_pos (Or.inl ht)]
    exact ⟨_, by rw [ChatMonitor.sayReply_messages, ChatMonitor.doCheer_messages]⟩
  · by_cases hk : strings.TrimPrefix (strings.ToLower env first) "!" ∈
        ["giftsub", "sub", "me", "cheer", "stats"]
    · obtain ⟨cm', reply, hd, hm⟩ := ChatMonitor.dispatch_recognised env cm message _ hk
      refine ⟨_, cm', rfl, ?_, ?_⟩
      · rw [if_neg ht]; exact hd
      · rw [if_pos (Or.inr hk)]; exact ⟨reply, hm⟩
    · refine ⟨_, cm, rfl, ?_, ?_⟩
      · rw [if_neg ht]; exact ChatMonitor.dispatch_unrecognised env cm message _ hk
      · rw [if_neg (by tauto)]

/-- C2. When the cheer total of a message is positive, `NewMessage` leaves the monitor
that `doCheer` for the sender and that total leaves, with the reply of `doCheer` as the
one text added to the queue; the ledger calls made are a beginning of `Cheer`, `UserInfo`,
`ChannelInfo`, so neither `Subscribe` nor `Gift` is called, also for `!sub Kappa100`. When
the total is not positive the keyword of `GetCommand` decides: for each of `giftsub`,
`sub`, `me`, `cheer`, `stats` the monitor left is the one that handler leaves, with the
reply of that handler as the one text added to the queue, and for any other keyword the
monitor is left as it was. -/
theorem C2_cheer_total_precedes_command {σ : Type} (env : Env) (cm : ChatMonitor σ)
    (message : PrivateMessage) :
    (cheerTotal message.Message > 0 →
      cm.NewMessage env message =
        some { (cm.doCheer message.User (cheerTotal message.Message)).2 with
          messages := cm.messages ++ [(cm.doCheer message.User (cheerTotal message.Message)).1] } ∧
      ∃ extra, (cm.doCheer message.User (cheerTotal message.Message)).2.calls = cm.calls ++ extra ∧
        extra <+: [LedgerCall.Cheer message.User.Name (cheerTotal message.Message),
          LedgerCall.UserInfo message.User.Name, LedgerCall.ChannelInfo] ∧
        ∀ c ∈ extra, (∀ u, c ≠ LedgerCall.Subscribe u) ∧ (∀ u g, c ≠ LedgerCall.Gift u g)) ∧
    (¬ cheerTotal message.Message > 0 →
      (GetCommand env message = some "giftsub" →
        ∃ r, cm.GiftSub env message = some r ∧
          cm.NewMessage env message = some { r.2 with messages := cm.messages ++ [r.1] }) ∧
      (GetCommand env message = some "sub" →
        cm.NewMessage env message =
          some { (cm.Subscribe message).2 with
            messages := cm.messages ++ [(cm.Subscribe message).1] }) ∧
      (GetCommand env message = some "me" →
        cm.NewMessage env message =
          some { (cm.AboutMe env message).2 with
            messages := cm.messages ++ [(cm.AboutMe env message).1] }) ∧
      (GetCommand env message = some "cheer" →
        ∃ r, cm.Cheer env message = some r ∧
          cm.NewMessage env message = some { r.2 with messages := cm.messages ++ [r.1] }) ∧
      (GetCommand env message = some "stats" →
        cm.NewMessage env message =
          some { cm.Stats.2 with messages := cm.messages ++ [cm.Stats.1] }) ∧
      (∀ cmd, GetCommand env message = some cmd →
        cmd ∉ ["giftsub", "sub", "me", "cheer", "stats"] →
        cm.NewMessage env message = some cm)) ∧
    (GetCommand asciiEnv ⟨alice, "!sub Kappa100"⟩ = some "sub" ∧
      cheerTotal "!sub Kappa100" = 100 ∧
      ((fixedMonitor none zeroUserInfo zeroChannelInfo).NewMessage asciiEnv
          ⟨alice, "!sub Kappa100"⟩).map (fun c => (c.messages, c.calls)) =
        some (["Alice, thanks for cheering 100 bits, for a total of 0! The community has given 0 bits, enough for a new teddy bear!"],
          [LedgerCall.Cheer "alice" 100, LedgerCall.UserInfo "alice", LedgerCall.ChannelInfo]) ∧
      ((fixedMonitor none zeroUserInfo zeroChannelInfo).NewMessage asciiEnv
          ⟨alice, "!sub Kappa"⟩).map (fun c => (c.messages, c.calls)) =
        some (["Thank you Alice for the sub! You can now use our emotes: SeemsGood VoHiYo 4Head GivePLZ Kappa MingLee TableHere #IfYouWant!"],
          [LedgerCall.Subscribe "alice"])) := by
  refine ⟨fun hpos => ?_, fun hneg => ?_, by decide, by decide, by decide, by decide⟩
  · constructor
    · rw [ChatMonitor.NewMessage_eq, if_pos hpos,
        sayReply_eq _ cm.messages (ChatMonitor.doCheer_messages _ _ _)]
    · obtain ⟨extra, hcalls, hpre⟩ :=
        ChatMonitor.doCheer_calls cm message.User (cheerTotal message.Message)
      refine ⟨extra, hcalls, hpre, fun c hc => ?_⟩
      have hmem := hpre.subset hc
      simp at hmem
      rcases hmem with rfl | rfl | rfl <;> simp
  · rw [ChatMonitor.NewMessage_eq, if_neg hneg]
    refine ⟨fun hcmd => ?_, fun hcmd => ?_, fun hcmd => ?_, fun hcmd => ?_, fun hcmd => ?_,
      fun cmd hcmd hnot => ?_⟩
    · obtain ⟨r, hr, hm⟩ := ChatMonitor.GiftSub_messages env cm message
      refine ⟨r, hr, ?_⟩
      rw [hcmd]
      simp only [Option.some_bind, ChatMonitor.dispatch, if_true, hr, Option.map_some']
      rw [sayReply_eq r cm.messages hm]
    · rw [hcmd]
      simp only [Option.some_bind, ChatMonitor.dispatch]
      rw [if_neg (by decide), if_pos trivial,
        sayReply_eq _ cm.messages (ChatMonitor.Subscribe_messages _ _)]
    · rw [hcmd]
      simp only [Option.some_bind, ChatMonitor.dispatch]
      rw [if_neg (by decide), if_neg (by decide), if_pos trivial,
        sayReply_eq _ cm.messages (ChatMonitor.AboutMe_messages _ _ _)]
    · obtain ⟨r, hr, hm⟩ := ChatMonitor.Cheer_messages env cm message
      refine ⟨r, hr, ?_⟩
      rw [hcmd]
      simp only [Option.some_bind, ChatMonitor.dispatch]
      rw [if_neg (by decide), if_neg (by decide), if_neg (by decide), if_pos trivial, hr]
      simp only [Option.map_some']
      rw [sayReply_eq r cm.messages hm]
    · rw [hcmd]
      simp only [Option.some_bind, ChatMonitor.dispatch]
      rw [if_neg (by decide), if_neg (by decide), if_neg (by decide), if_neg (by decide),
        if_pos trivial, sayReply_eq _ cm.messages (ChatMonitor.Stats_messages _)]
    · rw [hcmd]
      simp only [Option.some_bind]
      exact ChatMonitor.dispatch_unrecognised env cm message cmd hnot

/-- C2, at the text `!sub Kappa100`, whose cheer total is 100, and at the text `!sub`,
whose cheer total is 0 and whose keyword is `sub`. -/
theorem C2_cheer_total_precedes_command_witness :
    cheerTotal "!sub Kappa100" > 0 ∧
    (fixedMonitor none zeroUserInfo zeroChannelInfo).NewMessage asciiEnv
        ⟨alice, "!sub Kappa100"⟩ =
      some { ((fixedMonitor none zeroUserInfo zeroChannelInfo).doCheer alice 100).2 with
        messages := [((fixedMonitor none zeroUserInfo zeroChannelInfo).doCheer alice 100).1] } ∧
    ¬ cheerTotal "!sub" > 0 ∧ GetCommand asciiEnv ⟨alice, "!sub"⟩ = some "sub" ∧
    (fixedMonitor none zeroUserInfo zeroChannelInfo).NewMessage asciiEnv ⟨alice, "!sub"⟩ =
      some { ((fixedMonitor none zeroUserInfo zeroChannelInfo).Subscribe ⟨alice, "!sub"⟩).2 with
        messages :=
          [((fixedMonitor none zeroUserInfo zeroChannelInfo).Subscribe ⟨alice, "!sub"⟩).1] } :=
  ⟨by decide,
   ((C2_cheer_total_precedes_command asciiEnv (fixedMonitor none zeroUserInfo zeroChannelInfo)
      ⟨alice, "!sub Kappa100"⟩).1 (by decide)).1,
   by decide, by decide,
   ((C2_cheer_total_precedes_command asciiEnv (fixedMonitor none zeroUserInfo zeroChannelInfo)
      ⟨alice, "!sub"⟩).2.1 (by decide)).2.1 (by decide)⟩

/-- C3. When the first enqueued text is not the empty text, the texts `SaySlowly` sends are
the enqueued texts, in order, without every text equal to the one delivered just before it;
no two consecutive deliveries are equal, the deliveries are a subsequence of the enqueued
texts, and the texts `A`, `A`, `B` are delivered as `A`, `B`. -/
theorem C3_saySlowly_drops_repeats {σ : Type} (cm : ChatMonitor σ)
    (h : cm.messages.head? ≠ some "") :
    deliveries cm.SaySlowly = cm.messages.destutter (· ≠ ·) ∧
    List.Chain' (· ≠ ·) (deliveries cm.SaySlowly) ∧
    List.Sublist (deliveries cm.SaySlowly) cm.messages ∧
    deliveries (ChatMonitor.sayLoop cm.channel "" ["A", "A", "B"]) = ["A", "B"] := by
  rw [ChatMonitor.deliveries_SaySlowly cm h]
  exact ⟨rfl, List.destutter_is_chain' _ _, List.destutter_sublist _ _,
    by rw [ChatMonitor.deliveries_sayLoop]; decide⟩

/-- C3, at the texts `A`, `A`, `B`. -/
theorem C3_saySlowly_drops_repeats_witness :
    ({ fixedMonitor none zeroUserInfo zeroChannelInfo with
        messages := ["A", "A", "B"] } : ChatMonitor Unit).messages.head? ≠ some "" ∧
    deliveries ({ fixedMonitor none zeroUserInfo zeroChannelInfo with
        messages := ["A", "A", "B"] } : ChatMonitor Unit).SaySlowly = ["A", "B"] :=
  ⟨by decide,
   (C3_saySlowly_drops_repeats { fixedMonitor none zeroUserInfo zeroChannelInfo with
        messages := ["A", "A", "B"] } (by decide)).1.trans (by decide)⟩

/-- C4, as stated, fails: for the text of the two tokens `Kappa9223372036854775807` and
`Kappa1` the sum of the parsed amounts is 9223372036854775808, and the total that
`CheckCheers` computes is -9223372036854775808. -/
theorem C4_cheerTotal_sum_counterexample :
    cheerSum "Kappa9223372036854775807 Kappa1" = 9223372036854775808 ∧
    cheerTotal "Kappa9223372036854775807 Kappa1" = -9223372036854775808 ∧
    cheerTotal "Kappa9223372036854775807 Kappa1" ≠ cheerSum "Kappa9223372036854775807 Kappa1" := by
  decide

/-- C4, amended. The total of the cheer scan is the sum of the token amounts reduced to the
signed 64-bit range; it is that sum itself whenever the sum lies in the range of `int`;
it is zero when no token has an amount; and it is 150 for `Kappa100 PogChamp50`. -/
theorem C4_cheerTotal_is_wrapped_sum (text : String) :
    cheerTotal text = wrapInt (cheerSum text) ∧
    (minInt ≤ cheerSum text → cheerSum text ≤ maxInt → cheerTotal text = cheerSum text) ∧
    ((∀ token ∈ strings.Split text ' ', tokenAmount token = none) → cheerTotal text = 0) ∧
    cheerTotal "Kappa100 PogChamp50" = 150 := by
  refine ⟨cheerTotal_eq_wrapInt_cheerSum text, fun h0 h1 => ?_, fun hnone => ?_, by decide⟩
  · rw [cheerTotal_eq_wrapInt_cheerSum, wrapInt_of_range _ h0 h1]
  · have hnil : (strings.Split text ' ').filterMap tokenAmount = [] := by
      rw [List.filterMap_eq_nil_iff]
      exact hnone
    rw [cheerTotal_eq_wrapInt_cheerSum, cheerSum, hnil]
    decide

/-- C4, amended, at the texts `Kappa100 PogChamp50` and `hello Kappa`. -/
theorem C4_cheerTotal_is_wrapped_sum_witness :
    cheerTotal "Kappa100 PogChamp50" = cheerSum "Kappa100 PogChamp50" ∧
    cheerSum "Kappa100 PogChamp50" = 150 ∧
    cheerTotal "hello Kappa" = 0 :=
  ⟨(C4_cheerTotal_is_wrapped_sum "Kappa100 PogChamp50").2.1 (by decide) (by decide),
   by decide,
   (C4_cheerTotal_is_wrapped_sum "hello Kappa").2.2.1 (by decide)⟩

/-- C5, as stated, fails: the text `Kappa100 Kappa-200` contains the token `Kappa100`
and its cheer total is -100. -/
theorem C5_kappa100_counterexample :
    "Kappa100" ∈ strings.Split "Kappa100 Kappa-200" ' ' ∧
    cheerTotal "Kappa100 Kappa-200" = -100 ∧
    ¬ (100 ≤ cheerTotal "Kappa100 Kappa-200") := by
  decide

/-- C5, amended. A text that contains the token `Kappa100`, in which no token has a
negative amount and whose sum of amounts does not exceed the largest `int`, has a cheer
total of at least 100. -/
theorem C5_kappa100_at_least_100 (text : String)
    (hmem : "Kappa100" ∈ strings.Split text ' ')
    (hpos : ∀ token ∈ strings.Split text ' ', 0 ≤ (tokenAmount token).getD 0)
    (hmax : cheerSum text ≤ maxInt) :
    100 ≤ cheerTotal text := by
  have hk : tokenAmount "Kappa100" = some 100 := by decide
  have hin : (100 : Int) ∈ (strings.Split text ' ').filterMap tokenAmount := by
    rw [List.mem_filterMap]
    exact ⟨"Kappa100", hmem, hk⟩
  have hnonneg : ∀ x ∈ (strings.Split text ' ').filterMap tokenAmount, (0 : Int) ≤ x := by
    intro x hx
    rw [List.mem_filterMap] at hx
    obtain ⟨token, htoken, hx⟩ := hx
    have := hpos token htoken
    rw [hx] at this
    exact this
  have hsum : (100 : Int) ≤ cheerSum text := List.single_le_sum hnonneg 100 hin
  rw [cheerTotal_eq_wrapInt_cheerSum,
    wrapInt_of_range _ (le_trans (by decide) hsum) hmax]
  exact hsum

/-- C5, amended, at the text `Kappa100 PogChamp50`. -/
theorem C5_kappa100_at_least_100_witness :
    "Kappa100" ∈ strings.Split "Kappa100 PogChamp50" ' ' ∧
    (∀ token ∈ strings.Split "Kappa100 PogChamp50" ' ', 0 ≤ (tokenAmount token).getD 0) ∧
    cheerSum "Kappa100 PogChamp50" ≤ maxInt ∧
    100 ≤ cheerTotal "Kappa100 PogChamp50" :=
  ⟨by decide, by decide, by decide,
   C5_kappa100_at_least_100 "Kappa100 PogChamp50" (by decide) (by decide) (by decide)⟩

/-- C6. `doCheer` calls `Cheer` on the ledger exactly when `0 ≤ amount ≤ 1000000`, and then
as its first call, once, with the login name and the amount; a negative amount and an
amount above 1000000 get their fixed refusal and leave the monitor untouched. -/
theorem C6_doCheer_accepts_zero_to_million {σ : Type} (cm : ChatMonitor σ) (t : User)
    (amount : Int) :
    (amount < 0 → cm.doCheer t amount =
      (t.DisplayName ++ ", stop trying to steal my bits! :(", cm)) ∧
    (amount > 1000000 → cm.doCheer t amount =
      (t.DisplayName ++ ", I can't allow you to be so generous! GivePLZ", cm)) ∧
    (0 ≤ amount ∧ amount ≤ 1000000 →
      ∃ more, (cm.doCheer t amount).2.calls =
          cm.calls ++ LedgerCall.Cheer t.Name amount :: more ∧
        ∀ c ∈ more, ∀ u a, c ≠ LedgerCall.Cheer u a) ∧
    ((∃ u a, LedgerCall.Cheer u a ∈ (cm.doCheer t amount).2.calls.drop cm.calls.length) ↔
      0 ≤ amount ∧ amount ≤ 1000000) := by
  have hacc : 0 ≤ amount ∧ amount ≤ 1000000 →
      ∃ more, (cm.doCheer t amount).2.calls =
          cm.calls ++ LedgerCall.Cheer t.Name amount :: more ∧
        ∀ c ∈ more, ∀ u a, c ≠ LedgerCall.Cheer u a := by
    rintro ⟨h0, h1⟩
    rcases ChatMonitor.doCheer_accepted cm t amount h0 h1 with h | h
    · exact ⟨[], h, by simp⟩
    · refine ⟨[LedgerCall.UserInfo t.Name, LedgerCall.ChannelInfo], h, fun c hc => ?_⟩
      simp at hc
      rcases hc with rfl | rfl <;> simp
  refine ⟨(ChatMonitor.doCheer_rejected cm t amount).1,
    (ChatMonitor.doCheer_rejected cm t amount).2, hacc, ?_, ?_⟩
  · rintro ⟨u, a, hmem⟩
    by_contra hr
    have hcm : (cm.doCheer t amount).2 = cm := by
      by_cases h0 : amount < 0
      · rw [(ChatMonitor.doCheer_rejected cm t amount).1 h0]
      · rw [(ChatMonitor.doCheer_rejected cm t amount).2 (by omega)]
    rw [hcm] at hmem
    simp at hmem
  · intro hr
    obtain ⟨more, hcalls, -⟩ := hacc hr
    exact ⟨t.Name, amount, by rw [hcalls]; simp⟩

/-- C6, at the amounts -1, 1000001 and 1000000. -/
theorem C6_doCheer_accepts_zero_to_million_witness :
    ((fixedMonitor none zeroUserInfo zeroChannelInfo).doCheer alice (-1) =
      ("Alice, stop trying to steal my bits! :(", fixedMonitor none zeroUserInfo zeroChannelInfo)) ∧
    ((fixedMonitor none zeroUserInfo zeroChannelInfo).doCheer alice 1000001 =
      ("Alice, I can't allow you to be so generous! GivePLZ",
        fixedMonitor none zeroUserInfo zeroChannelInfo)) ∧
    (∃ u a, LedgerCall.Cheer u a ∈
      ((fixedMonitor none zeroUserInfo zeroChannelInfo).doCheer alice 1000000).2.calls.drop
        (fixedMonitor none zeroUserInfo zeroChannelInfo).calls.length) :=
  ⟨(C6_doCheer_accepts_zero_to_million (fixedMonitor none zeroUserInfo zeroChannelInfo)
      alice (-1)).1 (by decide),
   (C6_doCheer_accepts_zero_to_million (fixedMonitor none zeroUserInfo zeroChannelInfo)
      alice 1000001).2.1 (by decide),
   (C6_doCheer_accepts_zero_to_million (fixedMonitor none zeroUserInfo zeroChannelInfo)
      alice 1000000).2.2.2.2 ⟨by decide, by decide⟩⟩

/-- C7. For every text `GetCommand` returns a value, never a fault: the text up to its
first space, lowercased, without one leading `!`. For `!Sub` that is `sub`, and for the
empty text it is the empty text. -/
theorem C7_getCommand_first_token (env : Env) (message : PrivateMessage) :
    GetCommand env message = some (String.mk (stripMarker '!'
      ((message.Message.data.takeWhile (fun c => decide (c ≠ ' '))).map env.lower))) ∧
    GetCommand env ⟨message.User, "!Sub"⟩ = some "sub" ∧
    GetCommand env ⟨message.User, ""⟩ = some "" := by
  refine ⟨GetCommand_spec env message, ?_, ?_⟩
  · rw [GetCommand_spec]
    have h1 : env.lower '!' = '!' := env.lower_ascii '!' (by decide)
    have h2 : env.lower 'S' = 's' := env.lower_ascii 'S' (by decide)
    have h3 : env.lower 'u' = 'u' := env.lower_ascii 'u' (by decide)
    have h4 : env.lower 'b' = 'b' := env.lower_ascii 'b' (by decide)
    have hd : ("!Sub" : String).data = ['!', 'S', 'u', 'b'] := rfl
    simp [hd, List.takeWhile, h1, h2, h3, h4, stripMarker]
  · rw [GetCommand_spec]
    rfl

/-- C8, as stated, fails: for `n` the largest `int` the sum `n+1` wraps to a negative
number, the length test lets it through and the indexing faults. -/
theorem C8_getArgument_counterexample :
    (0 : Int) ≤ 9223372036854775807 ∧
    GetArgument asciiEnv 9223372036854775807 ⟨alice, "!giftsub @Alice"⟩ = none := by
  decide

/-- C8, amended. For every `n` with `0 ≤ n` and `n` below the largest `int`, `GetArgument`
returns a value, never a fault; it is absent exactly when the text split at single spaces
has fewer than `n+2` pieces, and otherwise it is piece `n+1`, lowercased, without one
leading `@`. For `!giftsub @Alice` argument 0 is `alice`; for `!giftsub` it is absent. -/
theorem C8_getArgument_in_range (env : Env) (n : Int) (message : PrivateMessage)
    (h0 : 0 ≤ n) (h1 : n < maxInt) :
    GetArgument env n message =
      some (((strings.Split message.Message ' ')[n.toNat + 1]?).map
        (fun part => String.mk (stripMarker '@' (part.data.map env.lower)))) ∧
    (GetArgument env n message = some none ↔
      (strings.Split message.Message ' ').length < n.toNat + 2) ∧
    GetArgument env 0 ⟨message.User, "!giftsub @Alice"⟩ = some (some "alice") ∧
    GetArgument env 0 ⟨message.User, "!giftsub"⟩ = some none := by
  refine ⟨GetArgument_spec env n message h0 h1, ?_, ?_, ?_⟩
  · rw [GetArgument_spec env n message h0 h1]
    simp only [Option.some.injEq, Option.map_eq_none']
    rw [List.getElem?_eq_none_iff]
    omega
  · rw [GetArgument_spec env 0 _ (by decide) (by decide)]
    have ha : env.lower 'A' = 'a' := env.lower_ascii 'A' (by decide)
    have hl : env.lower 'l' = 'l' := env.lower_ascii 'l' (by decide)
    have hi : env.lower 'i' = 'i' := env.lower_ascii 'i' (by decide)
    have hc : env.lower 'c' = 'c' := env.lower_ascii 'c' (by decide)
    have he : env.lower 'e' = 'e' := env.lower_ascii 'e' (by decide)
    have hm : env.lower '@' = '@' := env.lower_ascii '@' (by decide)
    have hs : strings.Split "!giftsub @Alice" ' ' = ["!giftsub", "@Alice"] := by decide
    have hd : ("@Alice" : String).data = ['@', 'A', 'l', 'i', 'c', 'e'] := rfl
    simp [hs, hd, ha, hl, hi, hc, he, hm, stripMarker]
  · rw [GetArgument_spec env 0 _ (by decide) (by decide)]
    have hs : strings.Split "!giftsub" ' ' = ["!giftsub"] := by decide
    simp [hs]

/-- C8, amended, at `n = 0` and the text `!giftsub @Alice`. -/
theorem C8_getArgument_in_range_witness :
    (0 : Int) ≤ 0 ∧ (0 : Int) < maxInt ∧
    GetArgument asciiEnv 0 ⟨alice, "!giftsub @Alice"⟩ = some (some "alice") :=
  ⟨by decide, by decide,
   (C8_getArgument_in_range asciiEnv 0 ⟨alice, "!giftsub @Alice"⟩ (by decide) (by decide)).1.trans
     (by decide)⟩

/-- C9. A failing mutating ledger call becomes a reply that embeds the error text `e`, and
the failing call is the last ledger call of the handler: `GiftSub` replies
`<DisplayName>, your giftsub failed because` and `e` between backquotes, `Subscribe`
the same with `sub`, `doCheer` the same with `cheer`. -/
theorem C9_ledger_failure_becomes_reply {σ : Type} (env : Env) (cm : ChatMonitor σ)
    (message : PrivateMessage) (e : String) :
    (∀ arg, GetArgument env 0 message = some (some arg) →
      (cm.LoyaltyRepo.Gift arg message.User.Name cm.store).1 = some e →
      ∃ cm', cm.GiftSub env message =
          some (message.User.DisplayName ++ ", your giftsub failed because `" ++ e ++ "`", cm') ∧
        cm'.calls = cm.calls ++ [LedgerCall.Gift arg message.User.Name] ∧
        cm'.messages = cm.messages) ∧
    ((cm.LoyaltyRepo.Subscribe message.User.Name cm.store).1 = some e →
      ∃ cm', cm.Subscribe message =
          (message.User.DisplayName ++ ", your sub failed because `" ++ e ++ "`", cm') ∧
        cm'.calls = cm.calls ++ [LedgerCall.Subscribe message.User.Name] ∧
        cm'.messages = cm.messages) ∧
    (∀ amount : Int, 0 ≤ amount → amount ≤ 1000000 →
      (cm.LoyaltyRepo.Cheer message.User.Name amount cm.store).1 = some e →
      ∃ cm', cm.doCheer message.User amount =
          (message.User.DisplayName ++ ", your cheer failed because `" ++ e ++ "`", cm') ∧
        cm'.calls = cm.calls ++ [LedgerCall.Cheer message.User.Name amount] ∧
        cm'.messages = cm.messages) := by
  refine ⟨fun arg harg hfail => ?_, fun hfail => ?_, fun amount h0 h1 hfail => ?_⟩
  · refine ⟨(cm.callGift arg message.User.Name).2, ?_, rfl, rfl⟩
    have hr : (cm.callGift arg message.User.Name).1 = some e := hfail
    unfold ChatMonitor.GiftSub
    rw [harg]
    simp only [hr]
  · refine ⟨(cm.callSubscribe message.User.Name).2, ?_, rfl, rfl⟩
    have hr : (cm.callSubscribe message.User.Name).1 = some e := hfail
    unfold ChatMonitor.Subscribe
    simp only [hr]
  · refine ⟨(cm.callCheer message.User.Name amount).2, ?_, rfl, rfl⟩
    have hr : (cm.callCheer message.User.Name amount).1 = some e := hfail
    have h0' : ¬ amount < 0 := by omega
    have h1' : ¬ amount > 1000000 := by omega
    unfold ChatMonitor.doCheer
    rw [if_neg h0', if_neg h1']
    simp only [hr]

/-- C9, at a ledger whose `Gift` fails with `already gifted this month`. -/
theorem C9_ledger_failure_becomes_reply_witness :
    GetArgument asciiEnv 0 ⟨alice, "!giftsub @Bob"⟩ = some (some "bob") ∧
    ((fixedMonitor (some "already gifted this month") zeroUserInfo zeroChannelInfo).LoyaltyRepo.Gift
      "bob" "alice" ()).1 = some "already gifted this month" ∧
    ∃ cm', (fixedMonitor (some "already gifted this month") zeroUserInfo zeroChannelInfo).GiftSub
        asciiEnv ⟨alice, "!giftsub @Bob"⟩ =
          some ("Alice, your giftsub failed because `already gifted this month`", cm') ∧
        cm'.calls = [LedgerCall.Gift "bob" "alice"] ∧ cm'.messages = [] :=
  ⟨by decide, rfl,
   (C9_ledger_failure_becomes_reply asciiEnv
      (fixedMonitor (some "already gifted this month") zeroUserInfo zeroChannelInfo)
      ⟨alice, "!giftsub @Bob"⟩ "already gifted this month").1 "bob" (by decide) rfl⟩

/-- C10. When `Subscribe` on the ledger succeeds for the login name of the sender, the
`Subscribe` handler has made that one ledger call and no other, and its reply is
`Thank you <DisplayName> for the sub!` followed by the fixed sentence with the emote
list; so the reply contains `Thank you`, the display name and the emote list. -/
theorem C10_subscribe_success_reply {σ : Type} (cm : ChatMonitor σ) (message : PrivateMessage)
    (h : (cm.LoyaltyRepo.Subscribe message.User.Name cm.store).1 = none) :
    (cm.Subscribe message).1 = "Thank you " ++ message.User.DisplayName ++
      " for the sub! You can now use our emotes: SeemsGood VoHiYo 4Head GivePLZ Kappa MingLee TableHere #IfYouWant!" ∧
    (cm.Subscribe message).2.calls = cm.calls ++ [LedgerCall.Subscribe message.User.Name] ∧
    "Thank you".data <:+: (cm.Subscribe message).1.data ∧
    message.User.DisplayName.data <:+: (cm.Subscribe message).1.data ∧
    "SeemsGood VoHiYo 4Head GivePLZ Kappa MingLee TableHere".data <:+:
      (cm.Subscribe message).1.data := by
  have hr : (cm.callSubscribe message.User.Name).1 = none := h
  have hreply : (cm.Subscribe message).1 = "Thank you " ++ message.User.DisplayName ++
      " for the sub! You can now use our emotes: SeemsGood VoHiYo 4Head GivePLZ Kappa MingLee TableHere #IfYouWant!" := by
    unfold ChatMonitor.Subscribe
    simp only [hr]
  have hcalls : (cm.Subscribe message).2.calls =
      cm.calls ++ [LedgerCall.Subscribe message.User.Name] := by
    unfold ChatMonitor.Subscribe
    simp only [hr]
    rfl
  refine ⟨hreply, hcalls, ?_, ?_, ?_⟩
  · rw [hreply, String.data_append, String.data_append]
    exact ⟨[], " ".data ++ message.User.DisplayName.data ++
      " for the sub! You can now use our emotes: SeemsGood VoHiYo 4Head GivePLZ Kappa MingLee TableHere #IfYouWant!".data,
      by simp⟩
  · rw [hreply, String.data_append, String.data_append]
    exact ⟨"Thank you ".data,
      " for the sub! You can now use our emotes: SeemsGood VoHiYo 4Head GivePLZ Kappa MingLee TableHere #IfYouWant!".data,
      rfl⟩
  · rw [hreply, String.data_append, String.data_append]
    exact ⟨"Thank you ".data ++ message.User.DisplayName.data ++
        " for the sub! You can now use our emotes: ".data, " #IfYouWant!".data, by simp⟩

/-- C10, at the sender `alice`, displayed as `Alice`, and a ledger that accepts. -/
theorem C10_subscribe_success_reply_witness :
    ((fixedMonitor none zeroUserInfo zeroChannelInfo).LoyaltyRepo.Subscribe "alice" ()).1 = none ∧
    ((fixedMonitor none zeroUserInfo zeroChannelInfo).Subscribe ⟨alice, "!sub"⟩).1 =
      "Thank you Alice for the sub! You can now use our emotes: SeemsGood VoHiYo 4Head GivePLZ Kappa MingLee TableHere #IfYouWant!" ∧
    ((fixedMonitor none zeroUserInfo zeroChannelInfo).Subscribe ⟨alice, "!sub"⟩).2.calls =
      [LedgerCall.Subscribe "alice"] :=
  ⟨rfl,
   (C10_subscribe_success_reply (fixedMonitor none zeroUserInfo zeroChannelInfo)
      ⟨alice, "!sub"⟩ rfl).1.trans (by decide),
   (C10_subscribe_success_reply (fixedMonitor none zeroUserInfo zeroChannelInfo)
      ⟨alice, "!sub"⟩ rfl).2.1⟩

/-- C11. The trace of `SaySlowly` is the paced trace of its deliveries: every send is
followed at once by one suspension of 4 seconds, after a suspension comes a send or the
end of the trace, so there are as many suspensions as deliveries and no two sends are
adjacent; a text equal to `lastMessage` is skipped and adds nothing to the trace. -/
theorem C11_saySlowly_paces_every_send {σ : Type} (cm : ChatMonitor σ) :
    cm.SaySlowly = pacedTrace cm.channel (deliveries cm.SaySlowly) ∧
    suspensions cm.SaySlowly = List.replicate (deliveries cm.SaySlowly).length 4000000000 ∧
    (∀ (i : Nat) (c text : String), cm.SaySlowly[i]? = some (Event.Say c text) →
      cm.SaySlowly[i + 1]? = some (Event.Sleep 4000000000)) ∧
    (∀ (i n : Nat), cm.SaySlowly[i]? = some (Event.Sleep n) →
      cm.SaySlowly[i + 1]? = none ∨ ∃ text, cm.SaySlowly[i + 1]? = some (Event.Say cm.channel text)) ∧
    (∀ (lastMessage : String) (rest : List String),
      ChatMonitor.sayLoop cm.channel lastMessage (lastMessage :: rest) =
        ChatMonitor.sayLoop cm.channel lastMessage rest) ∧
    ChatMonitor.sayLoop cm.channel "" ["A", "A", "B"] =
      [Event.Say cm.channel "A", Event.Sleep 4000000000,
       Event.Say cm.channel "B", Event.Sleep 4000000000] := by
  have hp : cm.SaySlowly = pacedTrace cm.channel (deliveries cm.SaySlowly) :=
    sayLoop_paced cm.channel "" cm.messages
  refine ⟨hp, ?_, ?_, ?_, ?_, ?_⟩
  · rw [hp, suspensions_paced, ← hp]
  · intro i c text h
    rw [hp] at h ⊢
    exact paced_say_then_sleep _ _ i c text h
  · intro i n h
    rw [hp] at h ⊢
    exact paced_sleep_then_say _ _ i n h
  · intro lastMessage rest
    simp [ChatMonitor.sayLoop]
  · simp [ChatMonitor.sayLoop]

/-- C11, at the texts `A`, `A`, `B`: the first event of the trace is a send and the
second is the suspension of 4 seconds. -/
theorem C11_saySlowly_paces_every_send_witness :
    ({ fixedMonitor none zeroUserInfo zeroChannelInfo with
        messages := ["A", "A", "B"] } : ChatMonitor Unit).SaySlowly[0]? =
      some (Event.Say "channel" "A") ∧
    ({ fixedMonitor none zeroUserInfo zeroChannelInfo with
        messages := ["A", "A", "B"] } : ChatMonitor Unit).SaySlowly[0 + 1]? =
      some (Event.Sleep 4000000000) :=
  ⟨by decide,
   (C11_saySlowly_paces_every_send { fixedMonitor none zeroUserInfo zeroChannelInfo with
        messages := ["A", "A", "B"] }).2.2.1 0 "channel" "A" (by decide)⟩

/-- C12, as stated, fails: for the text `!giftsub` followed by one space the second piece
is the empty text, `GetArgument` is not absent, and `GiftSub` calls `Gift` on the ledger
with the empty text as target. -/
theorem C12_giftSub_empty_target_counterexample :
    GetArgument asciiEnv 0 ⟨alice, "!giftsub "⟩ = some (some "") ∧
    ((fixedMonitor none zeroUserInfo zeroChannelInfo).GiftSub asciiEnv
        ⟨alice, "!giftsub "⟩).map (fun r => r.2.calls) =
      some [LedgerCall.Gift "" "alice", LedgerCall.UserInfo "alice"] := by
  decide

/-- C12, amended. `GiftSub` never faults. When the text split at single spaces has no
second piece it returns the usage hint and leaves the monitor untouched; otherwise its
first ledger call is `Gift` with the target and then the login name of the sender, the
target being the second piece lowercased without one leading `@`, and it calls `Gift`
no second time. -/
theorem C12_giftSub_usage_or_one_gift {σ : Type} (env : Env) (cm : ChatMonitor σ)
    (message : PrivateMessage) :
    ((strings.Split message.Message ' ')[1]? = none →
      cm.GiftSub env message = some ("To gift sub, type !giftsub <username>", cm)) ∧
    (∀ piece, (strings.Split message.Message ' ')[1]? = some piece →
      ∃ reply cm' more, cm.GiftSub env message = some (reply, cm') ∧
        cm'.calls = cm.calls ++
          LedgerCall.Gift (String.mk (stripMarker '@' (piece.data.map env.lower)))
            message.User.Name :: more ∧
        ∀ c ∈ more, ∀ u g, c ≠ LedgerCall.Gift u g) := by
  have harg := GetArgument_spec env 0 message (by decide) (by decide)
  simp only [Int.toNat_zero, Nat.zero_add] at harg
  constructor
  · intro hnone
    rw [hnone] at harg
    unfold ChatMonitor.GiftSub
    rw [harg]
    rfl
  · intro piece hpiece
    rw [hpiece] at harg
    unfold ChatMonitor.GiftSub
    rw [harg]
    simp only [Option.map_some']
    split
    · exact ⟨_, _, [], rfl, rfl, by simp⟩
    · exact ⟨_, _, [LedgerCall.UserInfo message.User.Name], rfl,
        by simp [ChatMonitor.callGift, ChatMonitor.callUserInfo], by simp⟩

/-- C12, amended, at the texts `!giftsub` and `!giftsub @Bob`. -/
theorem C12_giftSub_usage_or_one_gift_witness :
    (fixedMonitor none zeroUserInfo zeroChannelInfo).GiftSub asciiEnv ⟨alice, "!giftsub"⟩ =
      some ("To gift sub, type !giftsub <username>",
        fixedMonitor none zeroUserInfo zeroChannelInfo) ∧
    ∃ reply cm' more,
      (fixedMonitor none zeroUserInfo zeroChannelInfo).GiftSub asciiEnv ⟨alice, "!giftsub @Bob"⟩ =
        some (reply, cm') ∧
      cm'.calls = (fixedMonitor none zeroUserInfo zeroChannelInfo).calls ++
        LedgerCall.Gift (String.mk (stripMarker '@' (("@Bob" : String).data.map asciiEnv.lower)))
          "alice" :: more ∧
      ∀ c ∈ more, ∀ u g, c ≠ LedgerCall.Gift u g :=
  ⟨(C12_giftSub_usage_or_one_gift asciiEnv (fixedMonitor none zeroUserInfo zeroChannelInfo)
      ⟨alice, "!giftsub"⟩).1 (by decide),
   (C12_giftSub_usage_or_one_gift asciiEnv (fixedMonitor none zeroUserInfo zeroChannelInfo)
      ⟨alice, "!giftsub @Bob"⟩).2 "@Bob" (by decide)⟩

/-- C13. `Cheer` never faults. When the text split at single spaces has no second piece it
returns the usage hint; when the second piece, lowercased and without one leading `@`,
is refused by `Atoi` it returns `<DisplayName>, you must cheer a number.`; in both cases
the monitor is untouched, so no ledger call is made. When `Atoi` gives the integer `a`
the result is that of `doCheer` for the sender and `a`. -/
theorem C13_cheer_usage_number_or_doCheer {σ : Type} (env : Env) (cm : ChatMonitor σ)
    (message : PrivateMessage) :
    ((strings.Split message.Message ' ')[1]? = none →
      cm.Cheer env message = some ("To cheer, type !cheer <amount>, or Cheer100", cm)) ∧
    (∀ piece, (strings.Split message.Message ' ')[1]? = some piece →
      strconv.Atoi (String.mk (stripMarker '@' (piece.data.map env.lower))) = none →
      cm.Cheer env message =
        some (message.User.DisplayName ++ ", you must cheer a number.", cm)) ∧
    (∀ piece a, (strings.Split message.Message ' ')[1]? = some piece →
      strconv.Atoi (String.mk (stripMarker '@' (piece.data.map env.lower))) = some a →
      cm.Cheer env message = some (cm.doCheer message.User a)) := by
  have harg := GetArgument_spec env 0 message (by decide) (by decide)
  simp only [Int.toNat_zero, Nat.zero_add] at harg
  refine ⟨fun hnone => ?_, fun piece hpiece hatoi => ?_, fun piece a hpiece hatoi => ?_⟩
  · rw [hnone] at harg
    unfold ChatMonitor.Cheer
    rw [harg]
    rfl
  · rw [hpiece] at harg
    unfold ChatMonitor.Cheer
    rw [harg]
    simp only [Option.map_some', hatoi]
  · rw [hpiece] at harg
    unfold ChatMonitor.Cheer
    rw [harg]
    simp only [Option.map_some', hatoi]

/-- C13, at the texts `!cheer`, `!cheer lots` and `!cheer 100`. -/
theorem C13_cheer_usage_number_or_doCheer_witness :
    (fixedMonitor none zeroUserInfo zeroChannelInfo).Cheer asciiEnv ⟨alice, "!cheer"⟩ =
      some ("To cheer, type !cheer <amount>, or Cheer100",
        fixedMonitor none zeroUserInfo zeroChannelInfo) ∧
    (fixedMonitor none zeroUserInfo zeroChannelInfo).Cheer asciiEnv ⟨alice, "!cheer lots"⟩ =
      some ("Alice, you must cheer a number.", fixedMonitor none zeroUserInfo zeroChannelInfo) ∧
    (fixedMonitor none zeroUserInfo zeroChannelInfo).Cheer asciiEnv ⟨alice, "!cheer 100"⟩ =
      some ((fixedMonitor none zeroUserInfo zeroChannelInfo).doCheer alice 100) :=
  ⟨(C13_cheer_usage_number_or_doCheer asciiEnv (fixedMonitor none zeroUserInfo zeroChannelInfo)
      ⟨alice, "!cheer"⟩).1 (by decide),
   (C13_cheer_usage_number_or_doCheer asciiEnv (fixedMonitor none zeroUserInfo zeroChannelInfo)
      ⟨alice, "!cheer lots"⟩).2.1 "lots" (by decide) (by decide),
   (C13_cheer_usage_number_or_doCheer asciiEnv (fixedMonitor none zeroUserInfo zeroChannelInfo)
      ⟨alice, "!cheer 100"⟩).2.2 "100" 100 (by decide) (by decide)⟩

/-- C14. For the user record `info` that the ledger returns, the `AboutMe` reply is
`<DisplayName>, you: `, the parts joined with `; `, and a full stop. The parts are, in
order: the subscription part, which is `are not currently subscribed` exactly when the
clock is at least 720 hours past `LastSub`; the gifts part, which is
`have given 0 gift subs to the community` exactly when `GiftsGiven` is 0; the part
`last received a gift sub from <gifter>`, there exactly when a gifter is recorded; and the
cheer part, which is `have not cheered` exactly when `BitsCheered` is 0. So there are 4
parts with a gifter and 3 without, and the only ledger call is `UserInfo`. -/
theorem C14_aboutMe_parts {σ : Type} (env : Env) (cm : ChatMonitor σ)
    (message : PrivateMessage) (info : UserInfo)
    (hinfo : (cm.LoyaltyRepo.UserInfo message.User.Name cm.store).1 = info) :
    ∃ (subPart giftPart bitsPart : String) (fromPart : List String),
      (cm.AboutMe env message).1 = message.User.DisplayName ++ ", you: " ++
        strings.Join ([subPart, giftPart] ++ fromPart ++ [bitsPart]) "; " ++ "." ∧
      (subPart = "are not currently subscribed" ↔
        720 * time.Hour ≤ env.clock cm.ticks - info.LastSub) ∧
      (giftPart = "have given 0 gift subs to the community" ↔ info.GiftsGiven = 0) ∧
      (∀ gifter, info.SubbedFrom = some gifter →
        fromPart = ["last received a gift sub from " ++ gifter]) ∧
      (info.SubbedFrom = none → fromPart = []) ∧
      (bitsPart = "have not cheered" ↔ info.BitsCheered = 0) ∧
      ([subPart, giftPart] ++ fromPart ++ [bitsPart]).length =
        (if info.SubbedFrom.isSome then 4 else 3) ∧
      (cm.AboutMe env message).2.calls = cm.calls ++ [LedgerCall.UserInfo message.User.Name] := by
  have hr : (cm.callUserInfo message.User.Name).1 = info := hinfo
  refine ⟨(ChatMonitor.subscriptionPart env
      ((cm.callUserInfo message.User.Name).2.Since env info.LastSub).2 info
      (decide (((cm.callUserInfo message.User.Name).2.Since env info.LastSub).1 <
        1 * time.Hour * 24 * 30))).1,
    ChatMonitor.giftsPart info, ChatMonitor.cheerPart info, ChatMonitor.gifterPart info,
    ?_, ?_, giftsPart_zero info, ?_, ?_, cheerPart_zero info, ?_, ?_⟩
  · unfold ChatMonitor.AboutMe
    simp only [hr]
    rfl
  · rw [subscriptionPart_text]
    exact not_subbed_iff (env.clock cm.ticks) info.LastSub
  · intro gifter hg
    simp [ChatMonitor.gifterPart, hg]
  · intro hg
    simp [ChatMonitor.gifterPart, hg]
  · cases hg : info.SubbedFrom <;> simp [ChatMonitor.gifterPart, hg]
  · unfold ChatMonitor.AboutMe
    simp only [subscriptionPart_calls]
    rfl

/-- C14, at a user record with every counter at zero and no gifter: three parts; and the
whole reply when the last subscription is exactly 720 hours old. -/
theorem C14_aboutMe_parts_witness :
    ((fixedMonitor none zeroUserInfo zeroChannelInfo).LoyaltyRepo.UserInfo "alice" ()).1 =
      zeroUserInfo ∧
    ((fixedMonitor none { zeroUserInfo with LastSub := -2592000000000000 }
        zeroChannelInfo).AboutMe asciiEnv ⟨alice, "!me"⟩).1 =
      "Alice, you: are not currently subscribed; have given 0 gift subs to the community; have not cheered." ∧
    ∃ (subPart giftPart bitsPart : String) (fromPart : List String),
      ((fixedMonitor none zeroUserInfo zeroChannelInfo).AboutMe asciiEnv ⟨alice, "!me"⟩).1 =
        "Alice" ++ ", you: " ++
          strings.Join ([subPart, giftPart] ++ fromPart ++ [bitsPart]) "; " ++ "." ∧
      ([subPart, giftPart] ++ fromPart ++ [bitsPart]).length = 3 :=
  ⟨rfl, by decide,
   (C14_aboutMe_parts asciiEnv (fixedMonitor none zeroUserInfo zeroChannelInfo)
      ⟨alice, "!me"⟩ zeroUserInfo rfl).imp fun _ h => h.imp fun _ h => h.imp fun _ h =>
        h.imp fun _ h => ⟨h.1, h.2.2.2.2.2.2.1⟩⟩

/-- C15. When one of `USER_OAUTH_TOKEN`, `USER_NAME`, `USER_CHANNEL` is empty or not set,
`Monitor` returns the error that names the first such variable in that order, leaves the
channel name, the queue and the ledger as they were, and has not joined the channel,
registered the message callback, started the delivery loop or connected. When all three are set it uses their values as
they are, takes all six steps and returns what `Connect` returns. So the early error is
returned exactly when a variable is missing. -/
theorem C15_monitor_requires_configuration {σ : Type} (getenv : String → String)
    (connect : Option String) (cm : ChatMonitor σ) :
    (∀ v, requiredVariables.find? (fun v => decide (getenv v = "")) = some v →
      (cm.Monitor getenv connect).1 = some ("error, " ++ v ++ " variable empty") ∧
      (cm.Monitor getenv connect).2.1 = cm ∧
      ∀ step ∈ (cm.Monitor getenv connect).2.2,
        (∀ channel, step ≠ Step.Join channel) ∧ step ≠ Step.OnPrivateMessage ∧
        step ≠ Step.GoSaySlowly ∧ step ≠ Step.Connect) ∧
    (requiredVariables.find? (fun v => decide (getenv v = "")) = none →
      cm.Monitor getenv connect =
        (connect, { cm with channel := getenv "USER_CHANNEL" },
          [Step.NewClient (getenv "USER_NAME") (getenv "USER_OAUTH_TOKEN"), Step.OnConnect,
           Step.Join (getenv "USER_CHANNEL"), Step.OnPrivateMessage, Step.GoSaySlowly,
           Step.Connect])) ∧
    ((∃ v ∈ requiredVariables, getenv v = "") ↔
      ((cm.Monitor getenv connect).1.isSome = true ∧
        (∀ channel, Step.Join channel ∉ (cm.Monitor getenv connect).2.2) ∧
        Step.OnPrivateMessage ∉ (cm.Monitor getenv connect).2.2 ∧
        Step.GoSaySlowly ∉ (cm.Monitor getenv connect).2.2 ∧
        Step.Connect ∉ (cm.Monitor getenv connect).2.2)) := by
  by_cases ht : getenv "USER_OAUTH_TOKEN" = ""
  · have hm : cm.Monitor getenv connect =
        (some "error, USER_OAUTH_TOKEN variable empty", cm, []) := by
      simp [ChatMonitor.Monitor, ht]
    refine ⟨fun v hv => ?_, fun hn => ?_, ?_⟩
    · simp [requiredVariables, List.find?, ht] at hv
      subst hv
      rw [hm]
      exact ⟨rfl, rfl, by simp⟩
    · simp [requiredVariables, List.find?, ht] at hn
    · rw [hm]
      simp only [List.not_mem_nil, not_false_eq_true, Option.isSome_some, implies_true,
        and_self, iff_true]
      exact ⟨_, by simp [requiredVariables], ht⟩
  · have ht' : ¬ (getenv "USER_OAUTH_TOKEN").length = 0 := by rwa [length_eq_zero_iff]
    by_cases hn : getenv "USER_NAME" = ""
    · have hm : cm.Monitor getenv connect =
          (some "error, USER_NAME variable empty", cm, []) := by
        simp [ChatMonitor.Monitor, ht', hn]
      refine ⟨fun v hv => ?_, fun hnone => ?_, ?_⟩
      · simp [requiredVariables, List.find?, ht, hn] at hv
        subst hv
        rw [hm]
        exact ⟨rfl, rfl, by simp⟩
      · simp [requiredVariables, List.find?, ht, hn] at hnone
      · rw [hm]
        simp only [List.not_mem_nil, not_false_eq_true, Option.isSome_some, implies_true,
          and_self, iff_true]
        exact ⟨_, by simp [requiredVariables], hn⟩
    · have hn' : ¬ (getenv "USER_NAME").length = 0 := by rwa [length_eq_zero_iff]
      by_cases hc : getenv "USER_CHANNEL" = ""
      · have hm : cm.Monitor getenv connect =
            (some "error, USER_CHANNEL variable empty", cm,
              [Step.NewClient (getenv "USER_NAME") (getenv "USER_OAUTH_TOKEN"),
               Step.OnConnect]) := by
          simp [ChatMonitor.Monitor, ht', hn', hc]
        refine ⟨fun v hv => ?_, fun hnone => ?_, ?_⟩
        · simp [requiredVariables, List.find?, ht, hn, hc] at hv
          subst hv
          rw [hm]
          refine ⟨rfl, rfl, fun step hstep => ?_⟩
          simp at hstep
          rcases hstep with rfl | rfl <;> simp
        · simp [requiredVariables, List.find?, ht, hn, hc] at hnone
        · rw [hm]
          simp only [List.mem_cons, List.mem_singleton, List.not_mem_nil, or_false,
            reduceCtorEq, or_self, not_false_eq_true, Option.isSome_some, implies_true,
            and_self, iff_true]
          exact ⟨_, by simp [requiredVariables], hc⟩
      · have hc' : ¬ (getenv "USER_CHANNEL").length = 0 := by rwa [length_eq_zero_iff]
        have hm : cm.Monitor getenv connect =
            (connect, { cm with channel := getenv "USER_CHANNEL" },
              [Step.NewClient (getenv "USER_NAME") (getenv "USER_OAUTH_TOKEN"),
               Step.OnConnect, Step.Join (getenv "USER_CHANNEL"), Step.OnPrivateMessage,
               Step.GoSaySlowly, Step.Connect]) := by
          simp [ChatMonitor.Monitor, ht', hn', hc']
        refine ⟨fun v hv => ?_, fun _ => hm, ?_⟩
        · simp [requiredVariables, List.find?, ht, hn, hc] at hv
        · rw [hm]
          simp [requiredVariables, ht, hn, hc]

/-- C15, at an environment where only `USER_NAME` is not set, and at one where all
three variables are set and `Connect` returns no error. -/
theorem C15_monitor_requires_configuration_witness :
    ((fixedMonitor none zeroUserInfo zeroChannelInfo).Monitor
        (environment [("USER_OAUTH_TOKEN", "oauth:x"), ("USER_CHANNEL", "room")]) none).1 =
      some ("error, " ++ "USER_NAME" ++ " variable empty") ∧
    ((fixedMonitor none zeroUserInfo zeroChannelInfo).Monitor
        (environment [("USER_OAUTH_TOKEN", "oauth:x"), ("USER_NAME", "bot"),
          ("USER_CHANNEL", "room")]) none).2.2 =
      [Step.NewClient "bot" "oauth:x", Step.OnConnect, Step.Join "room",
       Step.OnPrivateMessage, Step.GoSaySlowly, Step.Connect] :=
  ⟨((C15_monitor_requires_configuration
      (environment [("USER_OAUTH_TOKEN", "oauth:x"), ("USER_CHANNEL", "room")]) none
      (fixedMonitor none zeroUserInfo zeroChannelInfo)).1 "USER_NAME" (by decide)).1,
   congrArg (fun r => r.2.2) ((C15_monitor_requires_configuration
      (environment [("USER_OAUTH_TOKEN", "oauth:x"), ("USER_NAME", "bot"),
        ("USER_CHANNEL", "room")]) none
      (fixedMonitor none zeroUserInfo zeroChannelInfo)).2.1 (by decide))⟩

/-- C16. No entry of `prefixes` starts another entry and no entry occurs twice; so at most
one entry starts a given token, and one pass of the inner loop of `CheckCheers` over a
token either leaves `total` as it was or adds one amount to it, once. -/
theorem C16_prefixes_match_at_most_once (token : String) (total : Int) :
    prefixes.Pairwise (fun a b => ¬ a.data <+: b.data ∧ ¬ b.data <+: a.data) ∧
    prefixes.Nodup ∧
    (prefixes.filter (fun pre => strings.HasPrefix token pre)).length ≤ 1 ∧
    (prefixes.foldl (cheerStep token) total = total ∨
      ∃ pre amt, prefixes.filter (fun pre => strings.HasPrefix token pre) = [pre] ∧
        strconv.Atoi (strings.TrimPrefix token pre) = some amt ∧
        prefixes.foldl (cheerStep token) total = wrapInt (total + amt)) := by
  have hone := filter_length_le_one (fun pre => strings.HasPrefix token pre) prefixes
    (prefixes_one_match token)
  refine ⟨?_, by decide, hone, ?_⟩
  · refine prefixes_incomparable.imp ?_
    rintro a b ⟨hab, hba⟩
    constructor
    · intro h
      rw [← List.isPrefixOf_iff_prefix, hab] at h
      exact Bool.noConfusion h
    · intro h
      rw [← List.isPrefixOf_iff_prefix, hba] at h
      exact Bool.noConfusion h
  · rw [foldl_prefixes]
    unfold tokenAmount
    cases hf : prefixes.find? (fun pre => strings.HasPrefix token pre) with
    | none => left; rfl
    | some pre =>
      have hpre : strings.HasPrefix token pre = true := by
        have := List.find?_some hf
        simpa using this
      have hmem : pre ∈ prefixes.filter (fun pre => strings.HasPrefix token pre) := by
        rw [List.mem_filter]
        exact ⟨List.mem_of_find?_eq_some hf, by simpa using hpre⟩
      have hfilter : prefixes.filter (fun pre => strings.HasPrefix token pre) = [pre] := by
        match hl : prefixes.filter (fun pre => strings.HasPrefix token pre) with
        | [] => rw [hl] at hmem; simp at hmem
        | [x] =>
          rw [hl] at hmem
          simp at hmem
          rw [hmem]
        | x :: y :: rest =>
          rw [hl] at hone
          simp at hone
      have htrim : strings.TrimPrefix token pre = String.mk (token.data.drop pre.data.length) := by
        simp [strings.TrimPrefix, hpre]
      cases ha : strconv.Atoi (String.mk (token.data.drop pre.data.length)) with
      | none =>
        left
        show (match strconv.Atoi (String.mk (token.data.drop pre.data.length)) with
          | some amt => wrapInt (total + amt)
          | none => total) = total
        rw [ha]
      | some amt =>
        right
        refine ⟨pre, amt, hfilter, by rw [htrim, ha], ?_⟩
        show (match strconv.Atoi (String.mk (token.data.drop pre.data.length)) with
          | some amt => wrapInt (total + amt)
          | none => total) = wrapInt (total + amt)
        rw [ha]

/-- C17. For a case table that gives `!` only for `!`, as `unicode.ToLower` does, and a
text that does not start with `!`: `GetCommand` gives the same keyword for the text and
for the text with `!` put in front; and when that keyword is one of `giftsub`, `sub`,
`me`, `cheer`, `stats`, `NewMessage` does the same with both texts. The text `sub`
makes the one ledger call `Subscribe` for the sender. -/
theorem C17_command_marker_is_optional {σ : Type} (env : Env)
    (hmark : ∀ c, env.lower c = '!' → c = '!') (cm : ChatMonitor σ) (u : User)
    (text : String) (h : text.data.head? ≠ some '!') :
    GetCommand env ⟨u, "!" ++ text⟩ = GetCommand env ⟨u, text⟩ ∧
    (∀ cmd ∈ ["giftsub", "sub", "me", "cheer", "stats"],
      GetCommand env ⟨u, text⟩ = some cmd →
      cm.NewMessage env ⟨u, "!" ++ text⟩ = cm.NewMessage env ⟨u, text⟩) ∧
    ((fixedMonitor none zeroUserInfo zeroChannelInfo).NewMessage env ⟨alice, "sub"⟩).map
      (fun c => c.calls) = some [LedgerCall.Subscribe "alice"] := by
  obtain ⟨first, rest, hs, hsm, hc, hcm⟩ := GetCommand_marked env hmark u text h
  refine ⟨by rw [hc, hcm], fun cmd hcmd hget => ?_, ?_⟩
  · rw [hc] at hget
    have hlow : strings.ToLower env first = cmd := Option.some.inj hget
    have htotal := cheerTotal_marked env text first cmd rest hs hsm hcmd hlow
    have harg := GetArgument_marked env u text first rest hs hsm
    rw [ChatMonitor.NewMessage_eq, ChatMonitor.NewMessage_eq]
    simp only [htotal, hc, hcm, Option.some_bind,
      dispatch_marked env cm u text ("!" ++ text) _ harg]
  · have h1 : env.lower 's' = 's' := env.lower_ascii 's' (by decide)
    have h2 : env.lower 'u' = 'u' := env.lower_ascii 'u' (by decide)
    have h3 : env.lower 'b' = 'b' := env.lower_ascii 'b' (by decide)
    have hd : ("sub" : String).data = ['s', 'u', 'b'] := rfl
    have hcmd : GetCommand env ⟨alice, "sub"⟩ = some "sub" := by
      rw [GetCommand_spec]
      simp [hd, List.takeWhile, h1, h2, h3, stripMarker]
    have htotal : ¬ cheerTotal "sub" > 0 := by decide
    rw [ChatMonitor.NewMessage_eq]
    simp only [htotal, if_false, hcmd, Option.some_bind]
    rfl

/-- C17, at the ASCII case table and the texts `Sub` and `!Sub`. -/
theorem C17_command_marker_is_optional_witness :
    (∀ c, asciiEnv.lower c = '!' → c = '!') ∧ ("Sub" : String).data.head? ≠ some '!' ∧
    GetCommand asciiEnv ⟨alice, "!" ++ "Sub"⟩ = GetCommand asciiEnv ⟨alice, "Sub"⟩ ∧
    GetCommand asciiEnv ⟨alice, "Sub"⟩ = some "sub" ∧
    (fixedMonitor none zeroUserInfo zeroChannelInfo).NewMessage asciiEnv ⟨alice, "!" ++ "Sub"⟩ =
      (fixedMonitor none zeroUserInfo zeroChannelInfo).NewMessage asciiEnv ⟨alice, "Sub"⟩ :=
  ⟨toLower_marker, by decide,
   (C17_command_marker_is_optional asciiEnv toLower_marker
      (fixedMonitor none zeroUserInfo zeroChannelInfo) alice "Sub" (by decide)).1,
   by decide,
   (C17_command_marker_is_optional asciiEnv toLower_marker
      (fixedMonitor none zeroUserInfo zeroChannelInfo) alice "Sub" (by decide)).2.1
      "sub" (by decide) (by decide)⟩

/-- C18. `SaySlowly` starts with the empty text as `lastMessage`. Its trace for a queue is
its trace for the queue without the leading empty texts, and its deliveries are that
shorter queue without every text equal to the one delivered just before it; so leading
empty texts give no send and no suspension, and a queue of empty texts only gives the
empty trace. When a text other than the empty one is followed in the queue by an empty
text, `SaySlowly` sends both, each followed by its suspension of 4 seconds, and goes on
as from the start. -/
theorem C18_saySlowly_leading_empty_texts {σ : Type} (cm : ChatMonitor σ) :
    cm.SaySlowly =
      ({ cm with messages := cm.messages.dropWhile (fun m => decide (m = "")) } :
        ChatMonitor σ).SaySlowly ∧
    deliveries cm.SaySlowly =
      (cm.messages.dropWhile (fun m => decide (m = ""))).destutter (· ≠ ·) ∧
    (∀ n : Nat, cm.messages = List.replicate n "" → cm.SaySlowly = []) ∧
    (∀ (n : Nat) (m : String) (rest : List String), m ≠ "" →
      cm.messages = List.replicate n "" ++ m :: "" :: rest →
      cm.SaySlowly =
        Event.Say cm.channel m :: Event.Sleep 4000000000 ::
          Event.Say cm.channel "" :: Event.Sleep 4000000000 ::
            ({ cm with messages := rest } : ChatMonitor σ).SaySlowly) ∧
    ({ fixedMonitor none zeroUserInfo zeroChannelInfo with
        messages := ["", "", "A", "", "B"] } : ChatMonitor Unit).SaySlowly =
      [Event.Say "channel" "A", Event.Sleep 4000000000, Event.Say "channel" "",
       Event.Sleep 4000000000, Event.Say "channel" "B", Event.Sleep 4000000000] := by
  have hdrop : cm.SaySlowly =
      ({ cm with messages := cm.messages.dropWhile (fun m => decide (m = "")) } :
        ChatMonitor σ).SaySlowly := sayLoop_dropWhile_empty cm.channel cm.messages
  refine ⟨hdrop, ?_, ?_, ?_, by decide⟩
  · rw [hdrop]
    exact ChatMonitor.deliveries_SaySlowly _ (dropWhile_empty_head cm.messages)
  · intro n hq
    unfold ChatMonitor.SaySlowly
    rw [hq]
    have := sayLoop_leading_empty cm.channel n []
    rw [List.append_nil] at this
    rw [this]
    rfl
  · intro n m rest hm hq
    have hne : ¬ "" = m := fun e => hm e.symm
    unfold ChatMonitor.SaySlowly
    rw [hq, sayLoop_leading_empty]
    simp [ChatMonitor.sayLoop, hne, hm]

/-- C18, at the queue of the empty text twice, then `A`, the empty text and `B`. -/
theorem C18_saySlowly_leading_empty_texts_witness :
    ("A" : String) ≠ "" ∧
    ({ fixedMonitor none zeroUserInfo zeroChannelInfo with
        messages := ["", "", "A", "", "B"] } : ChatMonitor Unit).messages =
      List.replicate 2 "" ++ "A" :: "" :: ["B"] ∧
    ({ fixedMonitor none zeroUserInfo zeroChannelInfo with
        messages := ["", "", "A", "", "B"] } : ChatMonitor Unit).SaySlowly =
      Event.Say "channel" "A" :: Event.Sleep 4000000000 ::
        Event.Say "channel" "" :: Event.Sleep 4000000000 ::
          ({ fixedMonitor none zeroUserInfo zeroChannelInfo with
              messages := ["B"] } : ChatMonitor Unit).SaySlowly :=
  ⟨by decide, by decide,
   (C18_saySlowly_leading_empty_texts { fixedMonitor none zeroUserInfo zeroChannelInfo with
        messages := ["", "", "A", "", "B"] }).2.2.2.1 2 "A" ["B"] (by decide) (by decide)⟩

end TwitchLoyalty
